import Mathlib

/-!
# Graceful shutdown coordinator: `graceful.StartServer`

A shallow embedding of `src/graceful/graceful.go` as a timed interleaving machine.

* The goroutine running `StartServer` is a program counter over the statements of the
  function (`PC`, named after the source lines) and one transition per statement
  (`StartServer`).
* The goroutine running `waiter` is a second program counter (`WPC`) with its own
  transition (`waiter`).
* The services, the caller owning the parent context, the operating system delivering
  signals, the runtime timer and the clock are the environment: each contributes events
  (`Event`) that a schedule interleaves freely with the two goroutines.
* A service is a goroutine that, once started, may look at the context it was given and
  may call `wg.Done()`, at any time and any number of times: it holds the WaitGroup
  itself.  A call that makes the counter negative panics.
* A signal reaches the call while its subscription is registered.  A signal that finds
  no subscription registered in the process takes its default action and terminates the
  process.  Nothing happens in a process that has panicked or has been terminated.
* Library primitives (`signal.NotifyContext`, its `stop`, `context.WithTimeout`,
  `sync.WaitGroup`) are modelled after their documented behaviour; cancellation of a
  context reaches its children in the same step.

Time is ideal: a statement takes no time, and the clock only advances when no goroutine
of the coordinator and no due timer is ready to run (`urgent`), never past an armed
deadline.  A disabled event leaves the state unchanged, so every list of events is a
schedule and `run` is total.
-/

namespace Graceful

/-- Program counter of the goroutine executing `StartServer`; `lNN` is "about to execute
line NN of graceful.go", `ret` is "has returned". -/
inductive PC
  | l33 | l37 | l38 | l41 | l42 | l43 | l46 | l47 | l49 | l50 | l51 | ret
  deriving DecidableEq, Repr

/-- Program counter of the goroutine executing `waiter`: not yet spawned, about to
execute line 55 (`wg.Wait()`), about to execute line 56 (`cancel()`), finished. -/
inductive WPC
  | idle | l55 | l56 | exit
  deriving DecidableEq, Repr

/-- One scheduling decision. -/
inductive Event
  /-- the StartServer goroutine executes its next statement -/
  | main
  /-- the waiter goroutine executes its next statement -/
  | waiterStep
  /-- the runtime fires the deadline timer of `waiterCtx` -/
  | timer
  /-- the caller cancels the parent context (or its deadline passes) -/
  | parentCancel
  /-- the process receives `os.Interrupt` or `syscall.SIGTERM` -/
  | osSignal
  /-- service `i` looks at the context it was given -/
  | observe (i : Nat)
  /-- service `i` calls `wg.Done()` -/
  | done (i : Nat)
  /-- the clock advances by `dt` -/
  | advance (dt : Nat)
  deriving DecidableEq, Repr

/-- Arguments of one call of `StartServer`, and the process state it starts in. -/
structure Config where
  /-- the `ctx` argument: `none` is a nil context, `some b` a context that is already
  cancelled at the call iff `b` -/
  ctx : Option Bool
  /-- the `waiterTimeOut` argument, in clock units (a `time.Duration` is signed) -/
  waiterTimeOut : Int
  /-- `len(services)` -/
  services : Nat
  /-- number of signal subscriptions active in the process when the call starts -/
  subs0 : Nat
  /-- clock value when the call starts -/
  t0 : Nat
  deriving DecidableEq, Repr

/-- What a service saw when it looked at its context. -/
structure Obs where
  /-- index of the observing service in `services` -/
  idx : Nat
  /-- whether `signalCtx.Done()` was closed -/
  cancelled : Bool
  /-- how many services StartServer had started at that moment -/
  startedThen : Nat
  deriving DecidableEq, Repr

/-- State of the process during one call of `StartServer`.  The fields `stopCalls`,
`sigSeen`, `obsLog`, `cancelAt`, `startedAtCancel`, `waiterCtxAt`, `byTimer` and `retAt`
are history variables: they record what happened and when, and no step reads them. -/
structure State where
  pc : PC
  wpc : WPC
  /-- clock -/
  now : Nat
  /-- `ctx.Done()` is closed -/
  ctxDone : Bool
  /-- `signalCtx.Done()` is closed -/
  signalCtx : Bool
  /-- the `signal.Notify` registration made by this call is active -/
  subscribed : Bool
  /-- number of active signal subscriptions in the process -/
  subs : Nat
  /-- number of calls of `stop` so far -/
  stopCalls : Nat
  /-- a signal was delivered to this call's subscription -/
  sigSeen : Bool
  /-- counter of `wg` -/
  wg : Int
  /-- a goroutine panicked (negative WaitGroup counter): the process is dead -/
  panicked : Bool
  /-- a signal took its default action: the process is dead -/
  killed : Bool
  /-- number of services for which the `go` statement has been executed -/
  started : Nat
  /-- calls of `wg.Done`, newest first: service index and clock value -/
  doneLog : List (Nat × Nat)
  /-- observations made by services, newest first -/
  obsLog : List Obs
  /-- `waiterCtx.Done()` is closed -/
  waiterCtx : Bool
  /-- the deadline timer of `waiterCtx` is armed -/
  armed : Bool
  /-- deadline of `waiterCtx` (meaningful while `armed`) -/
  deadline : Nat
  /-- clock value at which `signalCtx` was cancelled (meaningful once `signalCtx`) -/
  cancelAt : Nat
  /-- value of `started` when `signalCtx` was cancelled (meaningful once `signalCtx`) -/
  startedAtCancel : Nat
  /-- clock value at which `waiterCtx` was cancelled (meaningful once `waiterCtx`) -/
  waiterCtxAt : Nat
  /-- `waiterCtx` was cancelled by its deadline, not by `waiterComplete` -/
  byTimer : Bool
  /-- clock value at which `StartServer` returned (meaningful once `pc = ret`) -/
  retAt : Nat
  deriving DecidableEq, Repr

/-- State at the call of `StartServer`. -/
def init (cfg : Config) : State where
  pc := .l33
  wpc := .idle
  now := cfg.t0
  ctxDone := cfg.ctx.getD false
  signalCtx := false
  subscribed := false
  subs := cfg.subs0
  stopCalls := 0
  sigSeen := false
  wg := 0
  panicked := false
  killed := false
  started := 0
  doneLog := []
  obsLog := []
  waiterCtx := false
  armed := false
  deadline := 0
  cancelAt := 0
  startedAtCancel := 0
  waiterCtxAt := 0
  byTimer := false
  retAt := 0

/-! ## Library primitives -/

/-- Cancel function of `signalCtx`: closes `Done()` the first time, does nothing after. -/
def cancelSignalCtx (s : State) : State :=
  if s.signalCtx then s
  else { s with signalCtx := true, cancelAt := s.now, startedAtCancel := s.started }

/-- Method `signal.NotifyContext(ctx, ...)`: registers for the signals and derives a child
context of `ctx`, which is born cancelled when `ctx` is already cancelled. -/
def NotifyContext (s : State) : State :=
  let s1 := { s with subscribed := true, subs := s.subs + 1 }
  if s.ctxDone then cancelSignalCtx s1 else s1

/-- The `stop` function returned by `NotifyContext`: cancels the derived context and
unregisters the signal subscription (`signal.Stop`, which is idempotent). -/
def stop (s : State) : State :=
  let s1 := cancelSignalCtx s
  { s1 with subscribed := false,
            subs := if s1.subscribed then s1.subs - 1 else s1.subs,
            stopCalls := s1.stopCalls + 1 }

/-- Method `wg.Add(delta)`: adds to the counter and panics when it becomes negative. -/
def wgAdd (delta : Int) (s : State) : State :=
  { s with wg := s.wg + delta, panicked := s.panicked || decide (s.wg + delta < 0) }

/-- Cancellation of `waiterCtx` (by its timer when `t`, by `waiterComplete` otherwise):
closes `Done()` and stops the timer the first time, does nothing after. -/
def cancelWaiterCtx (t : Bool) (s : State) : State :=
  if s.waiterCtx then s
  else { s with waiterCtx := true, armed := false, waiterCtxAt := s.now, byTimer := t }

/-- Method `context.WithTimeout(context.Background(), d)`, that is
`WithDeadline(now + d)`: a deadline that has already passed yields a context that is
cancelled at once, otherwise a timer is armed. -/
def WithTimeout (d : Int) (s : State) : State :=
  if d ≤ 0 then cancelWaiterCtx true s
  else { s with armed := true, deadline := s.now + d.toNat }

/-! ## The two goroutines of the coordinator -/

/-- Whether the StartServer goroutine can execute its next statement: it blocks on
`<-signalCtx.Done()` (line 46) and on `<-waiterCtx.Done()` (line 51). -/
def mainEnabled (s : State) : Bool :=
  match s.pc with
  | .l46 => s.signalCtx
  | .l51 => s.waiterCtx
  | .ret => false
  | _ => true

/-- One statement of `StartServer`. -/
def StartServer (cfg : Config) (s : State) : State :=
  match s.pc with
  -- if ctx == nil { ctx = context.Background() }
  | .l33 => { s with pc := .l37 }
  -- signalCtx, stop := signal.NotifyContext(ctx, os.Interrupt, syscall.SIGTERM)
  | .l37 => { NotifyContext s with pc := .l38 }
  -- wg := &sync.WaitGroup{}
  | .l38 => { s with wg := 0, pc := .l41 }
  -- for _, service := range services
  | .l41 => if s.started < cfg.services then { s with pc := .l42 } else { s with pc := .l46 }
  -- wg.Add(1)
  | .l42 => { wgAdd 1 s with pc := .l43 }
  -- go service.RunGracefully(signalCtx, wg)
  | .l43 => { s with started := s.started + 1, pc := .l41 }
  -- <-signalCtx.Done()
  | .l46 => if s.signalCtx then { s with pc := .l47 } else s
  -- stop()
  | .l47 => { stop s with pc := .l49 }
  -- waiterCtx, waiterComplete := context.WithTimeout(context.Background(), waiterTimeOut)
  | .l49 => { WithTimeout cfg.waiterTimeOut s with pc := .l50 }
  -- go waiter(wg, waiterComplete)
  | .l50 => { s with wpc := .l55, pc := .l51 }
  -- <-waiterCtx.Done()
  | .l51 => if s.waiterCtx then { s with pc := .ret, retAt := s.now } else s
  | .ret => s

/-- Whether the waiter goroutine can execute its next statement: `wg.Wait()` blocks
until the counter is zero. -/
def waiterEnabled (s : State) : Bool :=
  match s.wpc with
  | .l55 => decide (s.wg = 0)
  | .l56 => true
  | _ => false

/-- One statement of `waiter`. -/
def waiter (s : State) : State :=
  match s.wpc with
  -- wg.Wait()
  | .l55 => if s.wg = 0 then { s with wpc := .l56 } else s
  -- cancel()
  | .l56 => { cancelWaiterCtx false s with wpc := .exit }
  | _ => s

/-! ## The environment -/

/-- Whether the timer of `waiterCtx` is armed and due. -/
def timerEnabled (s : State) : Bool :=
  s.armed && decide (s.deadline ≤ s.now)

/-- The runtime fires the timer of `waiterCtx`. -/
def timer (s : State) : State :=
  if timerEnabled s then cancelWaiterCtx true s else s

/-- Position of a statement in the text of `StartServer`. -/
def PC.rank : PC → Nat
  | .l33 => 0 | .l37 => 1 | .l38 => 2 | .l41 => 3 | .l42 => 4 | .l43 => 5
  | .l46 => 6 | .l47 => 7 | .l49 => 8 | .l50 => 9 | .l51 => 10 | .ret => 11

/-- Whether `signalCtx` exists: line 37 has been executed. -/
def tokenLive (s : State) : Bool :=
  decide (2 ≤ s.pc.rank)

/-- The parent context is cancelled; cancellation propagates to the derived `signalCtx`.
A nil `ctx` was replaced by `context.Background()`, which nobody can cancel. -/
def parentCancel (cfg : Config) (s : State) : State :=
  match cfg.ctx with
  | none => s
  | some _ =>
    let s1 := { s with ctxDone := true }
    if tokenLive s then cancelSignalCtx s1 else s1

/-- The process receives an interrupt or terminate signal.  While the subscription of
this call is registered the signal cancels `signalCtx`; while another subscription is
registered it goes there; with no subscription registered, as after `stop` in a process
that had none before the call, it terminates the process. -/
def osSignal (s : State) : State :=
  if s.subscribed then cancelSignalCtx { s with sigSeen := true }
  else if s.subs = 0 then { s with killed := true }
  else s

/-- Service `i`, once started, looks at `signalCtx`. -/
def observe (i : Nat) (s : State) : State :=
  if i < s.started then
    { s with obsLog := { idx := i, cancelled := s.signalCtx, startedThen := s.started } :: s.obsLog }
  else s

/-- Service `i`, once started, calls `wg.Done()`, that is `wg.Add(-1)`; nothing keeps it
from calling it again. -/
def done (i : Nat) (s : State) : State :=
  if i < s.started then
    wgAdd (-1) { s with doneLog := (i, s.now) :: s.doneLog }
  else s

/-- Something of the coordinator is ready to run now. -/
def urgent (s : State) : Bool :=
  mainEnabled s || waiterEnabled s || timerEnabled s

/-- The clock advances by `dt`: only when nothing is ready to run, and not past an armed
deadline. -/
def advance (dt : Nat) (s : State) : State :=
  if urgent s then s
  else if s.armed ∧ s.deadline < s.now + dt then s
  else { s with now := s.now + dt }

/-- The process has panicked or has been terminated by a signal. -/
def dead (s : State) : Bool := s.panicked || s.killed

/-- Effect of one event; nothing happens in a dead process. -/
def step (cfg : Config) (s : State) (e : Event) : State :=
  if dead s then s
  else match e with
    | .main => StartServer cfg s
    | .waiterStep => waiter s
    | .timer => timer s
    | .parentCancel => parentCancel cfg s
    | .osSignal => osSignal s
    | .observe i => observe i s
    | .done i => done i s
    | .advance dt => advance dt s

/-- State after a schedule. -/
def run (cfg : Config) (evs : List Event) : State :=
  evs.foldl (step cfg) (init cfg)

/-- Clock value of the newest entry of a log of `wg.Done` calls (0 for an empty log). -/
def lastT : List (Nat × Nat) → Nat
  | [] => 0
  | d :: _ => d.2

/-- Clock value of the latest call of `wg.Done` (0 when there was none). -/
def lastDone (s : State) : Nat := lastT s.doneLog

/-- Number of `wg.Add(1)` calls executed so far: one per started service, plus one when
the loop stands between `wg.Add(1)` and the `go` statement. -/
def added (s : State) : Nat := s.started + (if s.pc = .l43 then 1 else 0)

/-- The grace period as a clock distance: `waiterTimeOut` when positive, else 0. -/
def grace (cfg : Config) : Nat := cfg.waiterTimeOut.toNat

/-- Inductive invariant of the machine. -/
structure Inv (cfg : Config) (s : State) : Prop where
  panicIff : s.panicked = true ↔ s.wg < 0
  subscr : s.subscribed = true ↔ (2 ≤ s.pc.rank ∧ s.pc.rank ≤ 7)
  subsEq : s.subs = cfg.subs0 + (if s.subscribed then 1 else 0)
  stops : s.stopCalls = if 8 ≤ s.pc.rank then 1 else 0
  startedLe : s.started ≤ cfg.services
  startedLt : (s.pc = .l42 ∨ s.pc = .l43) → s.started < cfg.services
  startedAll : 6 ≤ s.pc.rank → s.started = cfg.services
  startedZero : s.pc.rank ≤ 2 → s.started = 0
  counter : s.wg = (added s : Int) - s.doneLog.length
  killedSubs : s.killed = true → s.subs = 0 ∧ s.subscribed = false
  doneLt : ∀ i ∈ s.doneLog.map Prod.fst, i < s.started
  sacLe : s.signalCtx = true → s.startedAtCancel ≤ s.started
  passed : 7 ≤ s.pc.rank → s.signalCtx = true
  noToken : s.pc.rank ≤ 1 → s.signalCtx = false ∧ s.sigSeen = false
  merged : 2 ≤ s.pc.rank → (s.signalCtx = true ↔ (s.ctxDone = true ∨ s.sigSeen = true))
  nilCtx : cfg.ctx = none → s.ctxDone = false
  wIdle : s.wpc = .idle ↔ s.pc.rank ≤ 9
  noWctx : s.pc.rank ≤ 8 → s.waiterCtx = false ∧ s.armed = false
  armedOff : s.armed = true → s.waiterCtx = false
  retW : s.pc = .ret → s.waiterCtx = true
  wLate : (s.wpc = .l56 ∨ s.wpc = .exit) → cfg.services ≤ s.doneLog.length
  wExit : s.wpc = .exit → s.waiterCtx = true
  obs : ∀ o ∈ s.obsLog, o.idx < o.startedThen ∧ o.startedThen ≤ s.started ∧
    (o.cancelled = true → s.signalCtx = true ∧ s.startedAtCancel ≤ o.startedThen)
  cLe : s.signalCtx = true → s.cancelAt ≤ s.now
  frozenC : s.signalCtx = true → s.pc.rank ≤ 9 → s.now = s.cancelAt
  immediate : 9 ≤ s.pc.rank → cfg.waiterTimeOut ≤ 0 →
    s.waiterCtx = true ∧ s.waiterCtxAt = s.cancelAt ∧ s.byTimer = true
  pending : 9 ≤ s.pc.rank → s.waiterCtx = false →
    0 < cfg.waiterTimeOut ∧ s.armed = true ∧ s.deadline = s.cancelAt + grace cfg ∧
      s.now ≤ s.deadline
  dl : s.armed = true →
    s.deadline = s.cancelAt + grace cfg ∧ 0 < cfg.waiterTimeOut ∧ s.now ≤ s.deadline
  wAt : s.waiterCtx = true →
    s.cancelAt ≤ s.waiterCtxAt ∧ s.waiterCtxAt ≤ s.now ∧
      (s.pc.rank ≤ 10 → s.now = s.waiterCtxAt) ∧ s.waiterCtxAt ≤ s.cancelAt + grace cfg
  retEq : s.pc = .ret → s.retAt = s.waiterCtxAt
  viaTimer : s.waiterCtx = true → s.byTimer = true → s.waiterCtxAt = s.cancelAt + grace cfg
  viaWaiter : s.waiterCtx = true → s.byTimer = false →
    cfg.services ≤ s.doneLog.length ∧
      (s.panicked = false → s.waiterCtxAt = max s.cancelAt (lastDone s))
  frozenW : ((s.wpc = .l55 ∧ s.doneLog.length = cfg.services) ∨ s.wpc = .l56) →
    s.now = max s.cancelAt (lastDone s)
  lastLe : lastDone s ≤ s.now
  timerLate : s.byTimer = true → s.waiterCtx = true → 0 < cfg.waiterTimeOut →
    s.doneLog.length = cfg.services → s.cancelAt + grace cfg ≤ lastDone s

/-! ## Schedules, traces and measures used in the statements -/

/-- Number of active signal subscriptions after a sequence of calls of `StartServer`, each
given by its arguments and its schedule and starting with the subscriptions the previous
call left; `none` when some call has not returned at the end of its schedule. -/
def subsAfterCalls (subs : Nat) : List (Config × List Event) → Option Nat
  | [] => some subs
  | (cfg, evs) :: rest =>
    let s := run { cfg with subs0 := subs } evs
    if s.pc = .ret then subsAfterCalls s.subs rest else none

/-- A schedule in which the parent context is cancelled at clock 5 and two services
finish at once. -/
def schedPrompt : List Event :=
  List.replicate 10 .main ++ [.advance 5, .parentCancel, .main, .main, .main, .main,
    .done 0, .done 1, .waiterStep, .waiterStep, .main]

/-- States after each event of a schedule, in order. -/
def history (cfg : Config) : State → List Event → List State
  | _, [] => []
  | s, e :: es => step cfg s e :: history cfg (step cfg s e) es

/-- Number of changes from `false` to `true` along a sequence of values that starts
from `a`. -/
def rises : Bool → List Bool → Nat
  | _, [] => 0
  | a, b :: l => (if a = false ∧ b = true then 1 else 0) + rises b l

/-- Number of changes from `true` to `false` along a sequence of values that starts
from `a`. -/
def falls : Bool → List Bool → Nat
  | _, [] => 0
  | a, b :: l => (if a = true ∧ b = false then 1 else 0) + falls b l

/-- Upper bound on the number of statements StartServer executes before it blocks on
`<-waiterCtx.Done()` or returns, once the merged token is cancelled. -/
def todo (cfg : Config) (s : State) : Nat :=
  match s.pc with
  | .l33 => 3 * (cfg.services - s.started) + 9
  | .l37 => 3 * (cfg.services - s.started) + 8
  | .l38 => 3 * (cfg.services - s.started) + 7
  | .l41 => 3 * (cfg.services - s.started) + 6
  | .l42 => 3 * (cfg.services - s.started) + 5
  | .l43 => 3 * (cfg.services - s.started) + 4
  | .l46 => 5
  | .l47 => 4
  | .l49 => 3
  | .l50 => 2
  | .l51 => if s.waiterCtx then 1 else 0
  | .ret => 0

/-- Events that let the coordinator run to its return without any help from the
services: StartServer runs as far as it can, the waiter runs, the clock advances to the
grace deadline, the timer fires, and StartServer runs again. -/
def drain (cfg : Config) (s : State) : List Event :=
  List.replicate (3 * cfg.services + 9) .main ++
    [.waiterStep, .waiterStep, .advance (s.cancelAt + grace cfg - s.now), .timer, .main]

/-- A schedule with two services: the parent context is cancelled at clock 5, service 0
finishes at once and service 1 finishes 210 later. -/
def schedSlow : List Event :=
  List.replicate 10 .main ++ [.advance 5, .parentCancel, .main, .main, .main, .main,
    .done 0, .advance 200, .timer, .main, .advance 10, .done 1]

/-- The timeout case of the test, up to the last `Done`: grace period 1000, cancellation
at clock 3, service 0 finishes at once and service 1 finishes 210 later. -/
def schedTestSlow : List Event :=
  List.replicate 10 .main ++ [.advance 3, .parentCancel, .main, .main, .main, .main,
    .done 0, .advance 210, .done 1]

/-- The normal case of the test, up to the last `Done`: grace period 1000, cancellation
at clock 3, both services finish at once. -/
def schedTestPrompt : List Event :=
  List.replicate 10 .main ++ [.advance 3, .parentCancel, .main, .main, .main, .main,
    .done 0, .done 1]

/-- A schedule with one service that never finishes: the call starts at clock 0, the
token is cancelled at clock 500, the grace period is 200. -/
def schedStuck : List Event :=
  List.replicate 7 .main ++ [.advance 500, .osSignal, .main, .main, .main, .main,
    .advance 200, .timer, .main]

/-- A schedule with one service and no other subscription in the process: a signal
cancels the token at clock 5, StartServer calls `stop` and waits, and the clock reaches
105. -/
def schedLateSignal : List Event :=
  List.replicate 7 .main ++ [.advance 5, .osSignal, .main, .main, .main, .main,
    .advance 100]

/-- A schedule with one service: the parent context is cancelled at clock 5, StartServer
reaches its last wait, and the service calls `Done`. -/
def schedDoneTwice : List Event :=
  List.replicate 7 .main ++ [.advance 5, .parentCancel, .main, .main, .main, .main, .done 0]

/-- A schedule with two services: the parent context is cancelled at clock 5, service 0
calls `Done` twice, service 1 never calls it, and the waiter and StartServer run. -/
def schedTwiceNever : List Event :=
  List.replicate 10 .main ++ [.advance 5, .parentCancel, .main, .main, .main, .main,
    .done 0, .done 0, .waiterStep, .waiterStep, .main]

/-! ## Basic facts -/

set_option linter.unusedTactic false
set_option linter.unreachableTactic false
set_option linter.unnecessarySeqFocus false
set_option linter.unusedVariables false

@[simp] theorem rank_l33 : PC.rank .l33 = 0 := rfl
@[simp] theorem rank_l37 : PC.rank .l37 = 1 := rfl
@[simp] theorem rank_l38 : PC.rank .l38 = 2 := rfl
@[simp] theorem rank_l41 : PC.rank .l41 = 3 := rfl
@[simp] theorem rank_l42 : PC.rank .l42 = 4 := rfl
@[simp] theorem rank_l43 : PC.rank .l43 = 5 := rfl
@[simp] theorem rank_l46 : PC.rank .l46 = 6 := rfl
@[simp] theorem rank_l47 : PC.rank .l47 = 7 := rfl
@[simp] theorem rank_l49 : PC.rank .l49 = 8 := rfl
@[simp] theorem rank_l50 : PC.rank .l50 = 9 := rfl
@[simp] theorem rank_l51 : PC.rank .l51 = 10 := rfl
@[simp] theorem rank_ret : PC.rank .ret = 11 := rfl

@[simp] theorem lastT_nil : lastT [] = 0 := rfl

@[simp] theorem lastT_cons (d : Nat × Nat) (l : List (Nat × Nat)) : lastT (d :: l) = d.2 := rfl

theorem inv_init (cfg : Config) : Inv cfg (init cfg) := by
  constructor <;> simp [init, added, lastDone]
  intro h; simp [h]

/-- Pigeonhole: a duplicate-free list of numbers below `n` has at most `n` entries. -/
theorem length_le_of_nodup_lt (l : List Nat) (n : Nat) (hnd : l.Nodup)
    (hlt : ∀ i ∈ l, i < n) : l.length ≤ n := by
  have hsub : l ⊆ List.range n := fun i hi => List.mem_range.mpr (hlt i hi)
  have := (List.subperm_of_subset hnd hsub).length_le
  simpa using this

/-- In a process that has not panicked there are at most as many `Done` calls as
`Add(1)` calls. -/
theorem doneLog_length_le (cfg : Config) (s : State) (h : Inv cfg s)
    (ha : s.panicked = false) : s.doneLog.length ≤ added s := by
  have h1 := h.panicIff
  have h2 := h.counter
  simp [ha] at h1
  omega

/-- A live process has neither panicked nor been terminated. -/
theorem dead_false (s : State) (hd : dead s = false) :
    s.panicked = false ∧ s.killed = false := by
  simpa [dead] using hd

/-! ## Preservation of the invariant

One lemma for each statement of `StartServer` and for each enabled event.  A field of the
invariant that the step does not touch is closed by the hypothesis itself; the others by
case analysis on the program counters and linear arithmetic. -/

set_option maxHeartbeats 1000000 in
theorem inv_main_l33 (cfg : Config) (s : State) (h : Inv cfg s) (ha : s.panicked = false)
    (hk : s.killed = false) (hpc : s.pc = .l33) : Inv cfg (StartServer cfg s) := by
  rcases s with ⟨pc, wpc, now, ctxDone, signalCtx, subscribed, subs, stopCalls, sigSeen, wg,
    panicked, killed, started, doneLog, obsLog, waiterCtx, armed, deadline, cancelAt, sac, wAt,
    byTimer, retAt⟩
  have hlen := doneLog_length_le cfg _ h ha
  have hraw := h
  rcases h with ⟨h1, h2, h3, h4, h5, h6, h7, h8, h9, h10, h11, h12, h13, h14, h15, h16, h17, h18,
    h19, h20, h21, h22, h23, h24, h25, h26, h27, h28, h29, h30, h31, h32, h33, h34, h35⟩
  simp only [] at *
  subst hpc
  simp [added, lastDone, grace] at *
  try casesm* _ ∧ _
  subst_vars
  try simp at *
  all_goals
    constructor <;> first
    | (first | exact hraw.panicIff | exact hraw.subscr | exact hraw.subsEq | exact hraw.stops |
        exact hraw.startedLe | exact hraw.startedLt | exact hraw.startedAll |
        exact hraw.startedZero | exact hraw.counter | exact hraw.killedSubs | exact hraw.doneLt |
        exact hraw.sacLe | exact hraw.passed | exact hraw.noToken | exact hraw.merged |
        exact hraw.nilCtx | exact hraw.wIdle | exact hraw.noWctx | exact hraw.armedOff |
        exact hraw.retW | exact hraw.wLate | exact hraw.wExit | exact hraw.obs | exact hraw.cLe |
        exact hraw.frozenC | exact hraw.immediate | exact hraw.pending | exact hraw.dl |
        exact hraw.wAt | exact hraw.retEq | exact hraw.viaTimer | exact hraw.viaWaiter |
        exact hraw.frozenW | exact hraw.lastLe | exact hraw.timerLate)
    | ((try simp [StartServer, NotifyContext, stop, cancelSignalCtx, WithTimeout,
      cancelWaiterCtx, wgAdd, waiter, timer, timerEnabled, parentCancel, tokenLive, osSignal,
      observe, done, advance, urgent, mainEnabled, waiterEnabled, added, lastDone, grace]) <;>
    first
    | assumption
    | omega
    | (intros; omega)
    | (intros; exfalso; omega)
    | (intro i x hm; have := h11 i x hm; omega)
    | (intro ha; have := h12 ha; omega)
    | (constructor <;> assumption)
    | (intro ha hb; have := h32 ha hb; omega)
    | (intro ha hb hc hd; have := h31 hb ha; have := h29 hb; omega)
    | (intro ha; have := h28 ha; have := hd ha; omega)
    | (intro ha; have := h28 ha; omega)
    | (intro ha; have := h29 ha; omega)
    | (intro ha; have := h32 ha; omega)
    | (intro ha hb hc; have := h31 ha; omega)
    | (apply List.eq_nil_of_length_eq_zero; omega)
    | (intro o ho; have hobs := h23 o ho; obtain ⟨oa, ob, oc⟩ := hobs
       first
       | omega
       | (refine ⟨by omega, by omega, fun hc => ?_⟩
          first
          | (have hq := oc hc; omega)
          | (exact oc hc)
          | (have h3 := oc hc; exact ⟨h3.1, by omega⟩)
          | (simp [oc] at hc)
          | (have hq := oc hc; simp_all; done)
          | (have hq := oc hc; simp_all; omega)))
    | (refine ⟨⟨by omega, fun hx => ⟨hx, h12 hx⟩⟩, h23⟩))

set_option maxHeartbeats 1000000 in
theorem inv_main_l38 (cfg : Config) (s : State) (h : Inv cfg s) (ha : s.panicked = false)
    (hk : s.killed = false) (hpc : s.pc = .l38) : Inv cfg (StartServer cfg s) := by
  rcases s with ⟨pc, wpc, now, ctxDone, signalCtx, subscribed, subs, stopCalls, sigSeen, wg,
    panicked, killed, started, doneLog, obsLog, waiterCtx, armed, deadline, cancelAt, sac, wAt,
    byTimer, retAt⟩
  have hlen := doneLog_length_le cfg _ h ha
  have hraw := h
  rcases h with ⟨h1, h2, h3, h4, h5, h6, h7, h8, h9, h10, h11, h12, h13, h14, h15, h16, h17, h18,
    h19, h20, h21, h22, h23, h24, h25, h26, h27, h28, h29, h30, h31, h32, h33, h34, h35⟩
  simp only [] at *
  subst hpc
  simp [added, lastDone, grace] at *
  try casesm* _ ∧ _
  subst_vars
  try simp at *
  all_goals
    constructor <;> first
    | (first | exact hraw.panicIff | exact hraw.subscr | exact hraw.subsEq | exact hraw.stops |
        exact hraw.startedLe | exact hraw.startedLt | exact hraw.startedAll |
        exact hraw.startedZero | exact hraw.counter | exact hraw.killedSubs | exact hraw.doneLt |
        exact hraw.sacLe | exact hraw.passed | exact hraw.noToken | exact hraw.merged |
        exact hraw.nilCtx | exact hraw.wIdle | exact hraw.noWctx | exact hraw.armedOff |
        exact hraw.retW | exact hraw.wLate | exact hraw.wExit | exact hraw.obs | exact hraw.cLe |
        exact hraw.frozenC | exact hraw.immediate | exact hraw.pending | exact hraw.dl |
        exact hraw.wAt | exact hraw.retEq | exact hraw.viaTimer | exact hraw.viaWaiter |
        exact hraw.frozenW | exact hraw.lastLe | exact hraw.timerLate)
    | ((try simp [StartServer, NotifyContext, stop, cancelSignalCtx, WithTimeout,
      cancelWaiterCtx, wgAdd, waiter, timer, timerEnabled, parentCancel, tokenLive, osSignal,
      observe, done, advance, urgent, mainEnabled, waiterEnabled, added, lastDone, grace]) <;>
    first
    | assumption
    | omega
    | (intros; omega)
    | (intros; exfalso; omega)
    | (intro i x hm; have := h11 i x hm; omega)
    | (intro ha; have := h12 ha; omega)
    | (constructor <;> assumption)
    | (intro ha hb; have := h32 ha hb; omega)
    | (intro ha hb hc hd; have := h31 hb ha; have := h29 hb; omega)
    | (intro ha; have := h28 ha; have := hd ha; omega)
    | (intro ha; have := h28 ha; omega)
    | (intro ha; have := h29 ha; omega)
    | (intro ha; have := h32 ha; omega)
    | (intro ha hb hc; have := h31 ha; omega)
    | (apply List.eq_nil_of_length_eq_zero; omega)
    | (intro o ho; have hobs := h23 o ho; obtain ⟨oa, ob, oc⟩ := hobs
       first
       | omega
       | (refine ⟨by omega, by omega, fun hc => ?_⟩
          first
          | (have hq := oc hc; omega)
          | (exact oc hc)
          | (have h3 := oc hc; exact ⟨h3.1, by omega⟩)
          | (simp [oc] at hc)
          | (have hq := oc hc; simp_all; done)
          | (have hq := oc hc; simp_all; omega)))
    | (refine ⟨⟨by omega, fun hx => ⟨hx, h12 hx⟩⟩, h23⟩))

set_option maxHeartbeats 1000000 in
theorem inv_main_l42 (cfg : Config) (s : State) (h : Inv cfg s) (ha : s.panicked = false)
    (hk : s.killed = false) (hpc : s.pc = .l42) : Inv cfg (StartServer cfg s) := by
  rcases s with ⟨pc, wpc, now, ctxDone, signalCtx, subscribed, subs, stopCalls, sigSeen, wg,
    panicked, killed, started, doneLog, obsLog, waiterCtx, armed, deadline, cancelAt, sac, wAt,
    byTimer, retAt⟩
  have hlen := doneLog_length_le cfg _ h ha
  have hraw := h
  rcases h with ⟨h1, h2, h3, h4, h5, h6, h7, h8, h9, h10, h11, h12, h13, h14, h15, h16, h17, h18,
    h19, h20, h21, h22, h23, h24, h25, h26, h27, h28, h29, h30, h31, h32, h33, h34, h35⟩
  simp only [] at *
  subst hpc
  simp [added, lastDone, grace] at *
  try casesm* _ ∧ _
  subst_vars
  try simp at *
  all_goals
    constructor <;> first
    | (first | exact hraw.panicIff | exact hraw.subscr | exact hraw.subsEq | exact hraw.stops |
        exact hraw.startedLe | exact hraw.startedLt | exact hraw.startedAll |
        exact hraw.startedZero | exact hraw.counter | exact hraw.killedSubs | exact hraw.doneLt |
        exact hraw.sacLe | exact hraw.passed | exact hraw.noToken | exact hraw.merged |
        exact hraw.nilCtx | exact hraw.wIdle | exact hraw.noWctx | exact hraw.armedOff |
        exact hraw.retW | exact hraw.wLate | exact hraw.wExit | exact hraw.obs | exact hraw.cLe |
        exact hraw.frozenC | exact hraw.immediate | exact hraw.pending | exact hraw.dl |
        exact hraw.wAt | exact hraw.retEq | exact hraw.viaTimer | exact hraw.viaWaiter |
        exact hraw.frozenW | exact hraw.lastLe | exact hraw.timerLate)
    | ((try simp [StartServer, NotifyContext, stop, cancelSignalCtx, WithTimeout,
      cancelWaiterCtx, wgAdd, waiter, timer, timerEnabled, parentCancel, tokenLive, osSignal,
      observe, done, advance, urgent, mainEnabled, waiterEnabled, added, lastDone, grace]) <;>
    first
    | assumption
    | omega
    | (intros; omega)
    | (intros; exfalso; omega)
    | (intro i x hm; have := h11 i x hm; omega)
    | (intro ha; have := h12 ha; omega)
    | (constructor <;> assumption)
    | (intro ha hb; have := h32 ha hb; omega)
    | (intro ha hb hc hd; have := h31 hb ha; have := h29 hb; omega)
    | (intro ha; have := h28 ha; have := hd ha; omega)
    | (intro ha; have := h28 ha; omega)
    | (intro ha; have := h29 ha; omega)
    | (intro ha; have := h32 ha; omega)
    | (intro ha hb hc; have := h31 ha; omega)
    | (apply List.eq_nil_of_length_eq_zero; omega)
    | (intro o ho; have hobs := h23 o ho; obtain ⟨oa, ob, oc⟩ := hobs
       first
       | omega
       | (refine ⟨by omega, by omega, fun hc => ?_⟩
          first
          | (have hq := oc hc; omega)
          | (exact oc hc)
          | (have h3 := oc hc; exact ⟨h3.1, by omega⟩)
          | (simp [oc] at hc)
          | (have hq := oc hc; simp_all; done)
          | (have hq := oc hc; simp_all; omega)))
    | (refine ⟨⟨by omega, fun hx => ⟨hx, h12 hx⟩⟩, h23⟩))

set_option maxHeartbeats 1000000 in
theorem inv_main_l43 (cfg : Config) (s : State) (h : Inv cfg s) (ha : s.panicked = false)
    (hk : s.killed = false) (hpc : s.pc = .l43) : Inv cfg (StartServer cfg s) := by
  rcases s with ⟨pc, wpc, now, ctxDone, signalCtx, subscribed, subs, stopCalls, sigSeen, wg,
    panicked, killed, started, doneLog, obsLog, waiterCtx, armed, deadline, cancelAt, sac, wAt,
    byTimer, retAt⟩
  have hlen := doneLog_length_le cfg _ h ha
  have hraw := h
  rcases h with ⟨h1, h2, h3, h4, h5, h6, h7, h8, h9, h10, h11, h12, h13, h14, h15, h16, h17, h18,
    h19, h20, h21, h22, h23, h24, h25, h26, h27, h28, h29, h30, h31, h32, h33, h34, h35⟩
  simp only [] at *
  subst hpc
  simp [added, lastDone, grace] at *
  try casesm* _ ∧ _
  subst_vars
  try simp at *
  all_goals
    constructor <;> first
    | (first | exact hraw.panicIff | exact hraw.subscr | exact hraw.subsEq | exact hraw.stops |
        exact hraw.startedLe | exact hraw.startedLt | exact hraw.startedAll |
        exact hraw.startedZero | exact hraw.counter | exact hraw.killedSubs | exact hraw.doneLt |
        exact hraw.sacLe | exact hraw.passed | exact hraw.noToken | exact hraw.merged |
        exact hraw.nilCtx | exact hraw.wIdle | exact hraw.noWctx | exact hraw.armedOff |
        exact hraw.retW | exact hraw.wLate | exact hraw.wExit | exact hraw.obs | exact hraw.cLe |
        exact hraw.frozenC | exact hraw.immediate | exact hraw.pending | exact hraw.dl |
        exact hraw.wAt | exact hraw.retEq | exact hraw.viaTimer | exact hraw.viaWaiter |
        exact hraw.frozenW | exact hraw.lastLe | exact hraw.timerLate)
    | ((try simp [StartServer, NotifyContext, stop, cancelSignalCtx, WithTimeout,
      cancelWaiterCtx, wgAdd, waiter, timer, timerEnabled, parentCancel, tokenLive, osSignal,
      observe, done, advance, urgent, mainEnabled, waiterEnabled, added, lastDone, grace]) <;>
    first
    | assumption
    | omega
    | (intros; omega)
    | (intros; exfalso; omega)
    | (intro i x hm; have := h11 i x hm; omega)
    | (intro ha; have := h12 ha; omega)
    | (constructor <;> assumption)
    | (intro ha hb; have := h32 ha hb; omega)
    | (intro ha hb hc hd; have := h31 hb ha; have := h29 hb; omega)
    | (intro ha; have := h28 ha; have := hd ha; omega)
    | (intro ha; have := h28 ha; omega)
    | (intro ha; have := h29 ha; omega)
    | (intro ha; have := h32 ha; omega)
    | (intro ha hb hc; have := h31 ha; omega)
    | (apply List.eq_nil_of_length_eq_zero; omega)
    | (intro o ho; have hobs := h23 o ho; obtain ⟨oa, ob, oc⟩ := hobs
       first
       | omega
       | (refine ⟨by omega, by omega, fun hc => ?_⟩
          first
          | (have hq := oc hc; omega)
          | (exact oc hc)
          | (have h3 := oc hc; exact ⟨h3.1, by omega⟩)
          | (simp [oc] at hc)
          | (have hq := oc hc; simp_all; done)
          | (have hq := oc hc; simp_all; omega)))
    | (refine ⟨⟨by omega, fun hx => ⟨hx, h12 hx⟩⟩, h23⟩))

set_option maxHeartbeats 1000000 in
theorem inv_main_l50 (cfg : Config) (s : State) (h : Inv cfg s) (ha : s.panicked = false)
    (hk : s.killed = false) (hpc : s.pc = .l50) : Inv cfg (StartServer cfg s) := by
  rcases s with ⟨pc, wpc, now, ctxDone, signalCtx, subscribed, subs, stopCalls, sigSeen, wg,
    panicked, killed, started, doneLog, obsLog, waiterCtx, armed, deadline, cancelAt, sac, wAt,
    byTimer, retAt⟩
  have hlen := doneLog_length_le cfg _ h ha
  have hraw := h
  rcases h with ⟨h1, h2, h3, h4, h5, h6, h7, h8, h9, h10, h11, h12, h13, h14, h15, h16, h17, h18,
    h19, h20, h21, h22, h23, h24, h25, h26, h27, h28, h29, h30, h31, h32, h33, h34, h35⟩
  simp only [] at *
  subst hpc
  simp [added, lastDone, grace] at *
  try casesm* _ ∧ _
  subst_vars
  try simp at *
  all_goals
    constructor <;> first
    | (first | exact hraw.panicIff | exact hraw.subscr | exact hraw.subsEq | exact hraw.stops |
        exact hraw.startedLe | exact hraw.startedLt | exact hraw.startedAll |
        exact hraw.startedZero | exact hraw.counter | exact hraw.killedSubs | exact hraw.doneLt |
        exact hraw.sacLe | exact hraw.passed | exact hraw.noToken | exact hraw.merged |
        exact hraw.nilCtx | exact hraw.wIdle | exact hraw.noWctx | exact hraw.armedOff |
        exact hraw.retW | exact hraw.wLate | exact hraw.wExit | exact hraw.obs | exact hraw.cLe |
        exact hraw.frozenC | exact hraw.immediate | exact hraw.pending | exact hraw.dl |
        exact hraw.wAt | exact hraw.retEq | exact hraw.viaTimer | exact hraw.viaWaiter |
        exact hraw.frozenW | exact hraw.lastLe | exact hraw.timerLate)
    | ((try simp [StartServer, NotifyContext, stop, cancelSignalCtx, WithTimeout,
      cancelWaiterCtx, wgAdd, waiter, timer, timerEnabled, parentCancel, tokenLive, osSignal,
      observe, done, advance, urgent, mainEnabled, waiterEnabled, added, lastDone, grace]) <;>
    first
    | assumption
    | omega
    | (intros; omega)
    | (intros; exfalso; omega)
    | (intro i x hm; have := h11 i x hm; omega)
    | (intro ha; have := h12 ha; omega)
    | (constructor <;> assumption)
    | (intro ha hb; have := h32 ha hb; omega)
    | (intro ha hb hc hd; have := h31 hb ha; have := h29 hb; omega)
    | (intro ha; have := h28 ha; have := hd ha; omega)
    | (intro ha; have := h28 ha; omega)
    | (intro ha; have := h29 ha; omega)
    | (intro ha; have := h32 ha; omega)
    | (intro ha hb hc; have := h31 ha; omega)
    | (apply List.eq_nil_of_length_eq_zero; omega)
    | (intro o ho; have hobs := h23 o ho; obtain ⟨oa, ob, oc⟩ := hobs
       first
       | omega
       | (refine ⟨by omega, by omega, fun hc => ?_⟩
          first
          | (have hq := oc hc; omega)
          | (exact oc hc)
          | (have h3 := oc hc; exact ⟨h3.1, by omega⟩)
          | (simp [oc] at hc)
          | (have hq := oc hc; simp_all; done)
          | (have hq := oc hc; simp_all; omega)))
    | (refine ⟨⟨by omega, fun hx => ⟨hx, h12 hx⟩⟩, h23⟩))

set_option maxHeartbeats 1000000 in
theorem inv_main_ret (cfg : Config) (s : State) (h : Inv cfg s) (ha : s.panicked = false)
    (hk : s.killed = false) (hpc : s.pc = .ret) : Inv cfg (StartServer cfg s) := by
  rcases s with ⟨pc, wpc, now, ctxDone, signalCtx, subscribed, subs, stopCalls, sigSeen, wg,
    panicked, killed, started, doneLog, obsLog, waiterCtx, armed, deadline, cancelAt, sac, wAt,
    byTimer, retAt⟩
  have hlen := doneLog_length_le cfg _ h ha
  have hraw := h
  rcases h with ⟨h1, h2, h3, h4, h5, h6, h7, h8, h9, h10, h11, h12, h13, h14, h15, h16, h17, h18,
    h19, h20, h21, h22, h23, h24, h25, h26, h27, h28, h29, h30, h31, h32, h33, h34, h35⟩
  simp only [] at *
  subst hpc
  simp [added, lastDone, grace] at *
  try casesm* _ ∧ _
  subst_vars
  try simp at *
  all_goals
    constructor <;> first
    | (first | exact hraw.panicIff | exact hraw.subscr | exact hraw.subsEq | exact hraw.stops |
        exact hraw.startedLe | exact hraw.startedLt | exact hraw.startedAll |
        exact hraw.startedZero | exact hraw.counter | exact hraw.killedSubs | exact hraw.doneLt |
        exact hraw.sacLe | exact hraw.passed | exact hraw.noToken | exact hraw.merged |
        exact hraw.nilCtx | exact hraw.wIdle | exact hraw.noWctx | exact hraw.armedOff |
        exact hraw.retW | exact hraw.wLate | exact hraw.wExit | exact hraw.obs | exact hraw.cLe |
        exact hraw.frozenC | exact hraw.immediate | exact hraw.pending | exact hraw.dl |
        exact hraw.wAt | exact hraw.retEq | exact hraw.viaTimer | exact hraw.viaWaiter |
        exact hraw.frozenW | exact hraw.lastLe | exact hraw.timerLate)
    | ((try simp [StartServer, NotifyContext, stop, cancelSignalCtx, WithTimeout,
      cancelWaiterCtx, wgAdd, waiter, timer, timerEnabled, parentCancel, tokenLive, osSignal,
      observe, done, advance, urgent, mainEnabled, waiterEnabled, added, lastDone, grace]) <;>
    first
    | assumption
    | omega
    | (intros; omega)
    | (intros; exfalso; omega)
    | (intro i x hm; have := h11 i x hm; omega)
    | (intro ha; have := h12 ha; omega)
    | (constructor <;> assumption)
    | (intro ha hb; have := h32 ha hb; omega)
    | (intro ha hb hc hd; have := h31 hb ha; have := h29 hb; omega)
    | (intro ha; have := h28 ha; have := hd ha; omega)
    | (intro ha; have := h28 ha; omega)
    | (intro ha; have := h29 ha; omega)
    | (intro ha; have := h32 ha; omega)
    | (intro ha hb hc; have := h31 ha; omega)
    | (apply List.eq_nil_of_length_eq_zero; omega)
    | (intro o ho; have hobs := h23 o ho; obtain ⟨oa, ob, oc⟩ := hobs
       first
       | omega
       | (refine ⟨by omega, by omega, fun hc => ?_⟩
          first
          | (have hq := oc hc; omega)
          | (exact oc hc)
          | (have h3 := oc hc; exact ⟨h3.1, by omega⟩)
          | (simp [oc] at hc)
          | (have hq := oc hc; simp_all; done)
          | (have hq := oc hc; simp_all; omega)))
    | (refine ⟨⟨by omega, fun hx => ⟨hx, h12 hx⟩⟩, h23⟩))

set_option maxHeartbeats 1000000 in
theorem inv_main_l47 (cfg : Config) (s : State) (h : Inv cfg s) (ha : s.panicked = false)
    (hk : s.killed = false) (hpc : s.pc = .l47) : Inv cfg (StartServer cfg s) := by
  rcases s with ⟨pc, wpc, now, ctxDone, signalCtx, subscribed, subs, stopCalls, sigSeen, wg,
    panicked, killed, started, doneLog, obsLog, waiterCtx, armed, deadline, cancelAt, sac, wAt,
    byTimer, retAt⟩
  have hlen := doneLog_length_le cfg _ h ha
  have hraw := h
  rcases h with ⟨h1, h2, h3, h4, h5, h6, h7, h8, h9, h10, h11, h12, h13, h14, h15, h16, h17, h18,
    h19, h20, h21, h22, h23, h24, h25, h26, h27, h28, h29, h30, h31, h32, h33, h34, h35⟩
  simp only [] at *
  subst hpc
  simp [added, lastDone, grace] at *
  try casesm* _ ∧ _
  subst_vars
  try simp at *
  all_goals
    constructor <;> first
    | (first | exact hraw.panicIff | exact hraw.subscr | exact hraw.subsEq | exact hraw.stops |
        exact hraw.startedLe | exact hraw.startedLt | exact hraw.startedAll |
        exact hraw.startedZero | exact hraw.counter | exact hraw.killedSubs | exact hraw.doneLt |
        exact hraw.sacLe | exact hraw.passed | exact hraw.noToken | exact hraw.merged |
        exact hraw.nilCtx | exact hraw.wIdle | exact hraw.noWctx | exact hraw.armedOff |
        exact hraw.retW | exact hraw.wLate | exact hraw.wExit | exact hraw.obs | exact hraw.cLe |
        exact hraw.frozenC | exact hraw.immediate | exact hraw.pending | exact hraw.dl |
        exact hraw.wAt | exact hraw.retEq | exact hraw.viaTimer | exact hraw.viaWaiter |
        exact hraw.frozenW | exact hraw.lastLe | exact hraw.timerLate)
    | ((try simp [StartServer, NotifyContext, stop, cancelSignalCtx, WithTimeout,
      cancelWaiterCtx, wgAdd, waiter, timer, timerEnabled, parentCancel, tokenLive, osSignal,
      observe, done, advance, urgent, mainEnabled, waiterEnabled, added, lastDone, grace]) <;>
    first
    | assumption
    | omega
    | (intros; omega)
    | (intros; exfalso; omega)
    | (intro i x hm; have := h11 i x hm; omega)
    | (intro ha; have := h12 ha; omega)
    | (constructor <;> assumption)
    | (intro ha hb; have := h32 ha hb; omega)
    | (intro ha hb hc hd; have := h31 hb ha; have := h29 hb; omega)
    | (intro ha; have := h28 ha; have := hd ha; omega)
    | (intro ha; have := h28 ha; omega)
    | (intro ha; have := h29 ha; omega)
    | (intro ha; have := h32 ha; omega)
    | (intro ha hb hc; have := h31 ha; omega)
    | (apply List.eq_nil_of_length_eq_zero; omega)
    | (intro o ho; have hobs := h23 o ho; obtain ⟨oa, ob, oc⟩ := hobs
       first
       | omega
       | (refine ⟨by omega, by omega, fun hc => ?_⟩
          first
          | (have hq := oc hc; omega)
          | (exact oc hc)
          | (have h3 := oc hc; exact ⟨h3.1, by omega⟩)
          | (simp [oc] at hc)
          | (have hq := oc hc; simp_all; done)
          | (have hq := oc hc; simp_all; omega)))
    | (refine ⟨⟨by omega, fun hx => ⟨hx, h12 hx⟩⟩, h23⟩))

set_option maxHeartbeats 1000000 in
theorem inv_main_l37 (cfg : Config) (s : State) (h : Inv cfg s) (ha : s.panicked = false)
    (hk : s.killed = false) (hpc : s.pc = .l37) : Inv cfg (StartServer cfg s) := by
  rcases s with ⟨pc, wpc, now, ctxDone, signalCtx, subscribed, subs, stopCalls, sigSeen, wg,
    panicked, killed, started, doneLog, obsLog, waiterCtx, armed, deadline, cancelAt, sac, wAt,
    byTimer, retAt⟩
  have hlen := doneLog_length_le cfg _ h ha
  have hraw := h
  rcases h with ⟨h1, h2, h3, h4, h5, h6, h7, h8, h9, h10, h11, h12, h13, h14, h15, h16, h17, h18,
    h19, h20, h21, h22, h23, h24, h25, h26, h27, h28, h29, h30, h31, h32, h33, h34, h35⟩
  simp only [] at *
  subst hpc
  simp [added, lastDone, grace] at *
  try casesm* _ ∧ _
  subst_vars
  try simp at *
  cases ctxDone <;> simp at *

  all_goals
    constructor <;> first
    | (first | exact hraw.panicIff | exact hraw.subscr | exact hraw.subsEq | exact hraw.stops |
        exact hraw.startedLe | exact hraw.startedLt | exact hraw.startedAll |
        exact hraw.startedZero | exact hraw.counter | exact hraw.killedSubs | exact hraw.doneLt |
        exact hraw.sacLe | exact hraw.passed | exact hraw.noToken | exact hraw.merged |
        exact hraw.nilCtx | exact hraw.wIdle | exact hraw.noWctx | exact hraw.armedOff |
        exact hraw.retW | exact hraw.wLate | exact hraw.wExit | exact hraw.obs | exact hraw.cLe |
        exact hraw.frozenC | exact hraw.immediate | exact hraw.pending | exact hraw.dl |
        exact hraw.wAt | exact hraw.retEq | exact hraw.viaTimer | exact hraw.viaWaiter |
        exact hraw.frozenW | exact hraw.lastLe | exact hraw.timerLate)
    | ((try simp [StartServer, NotifyContext, stop, cancelSignalCtx, WithTimeout,
      cancelWaiterCtx, wgAdd, waiter, timer, timerEnabled, parentCancel, tokenLive, osSignal,
      observe, done, advance, urgent, mainEnabled, waiterEnabled, added, lastDone, grace]) <;>
    first
    | assumption
    | omega
    | (intros; omega)
    | (intros; exfalso; omega)
    | (intro i x hm; have := h11 i x hm; omega)
    | (intro ha; have := h12 ha; omega)
    | (constructor <;> assumption)
    | (intro ha hb; have := h32 ha hb; omega)
    | (intro ha hb hc hd; have := h31 hb ha; have := h29 hb; omega)
    | (intro ha; have := h28 ha; have := hd ha; omega)
    | (intro ha; have := h28 ha; omega)
    | (intro ha; have := h29 ha; omega)
    | (intro ha; have := h32 ha; omega)
    | (intro ha hb hc; have := h31 ha; omega)
    | (apply List.eq_nil_of_length_eq_zero; omega)
    | (intro o ho; have hobs := h23 o ho; obtain ⟨oa, ob, oc⟩ := hobs
       first
       | omega
       | (refine ⟨by omega, by omega, fun hc => ?_⟩
          first
          | (have hq := oc hc; omega)
          | (exact oc hc)
          | (have h3 := oc hc; exact ⟨h3.1, by omega⟩)
          | (simp [oc] at hc)
          | (have hq := oc hc; simp_all; done)
          | (have hq := oc hc; simp_all; omega)))
    | (refine ⟨⟨by omega, fun hx => ⟨hx, h12 hx⟩⟩, h23⟩))

set_option maxHeartbeats 1000000 in
theorem inv_main_l41 (cfg : Config) (s : State) (h : Inv cfg s) (ha : s.panicked = false)
    (hk : s.killed = false) (hpc : s.pc = .l41) : Inv cfg (StartServer cfg s) := by
  rcases s with ⟨pc, wpc, now, ctxDone, signalCtx, subscribed, subs, stopCalls, sigSeen, wg,
    panicked, killed, started, doneLog, obsLog, waiterCtx, armed, deadline, cancelAt, sac, wAt,
    byTimer, retAt⟩
  have hlen := doneLog_length_le cfg _ h ha
  have hraw := h
  rcases h with ⟨h1, h2, h3, h4, h5, h6, h7, h8, h9, h10, h11, h12, h13, h14, h15, h16, h17, h18,
    h19, h20, h21, h22, h23, h24, h25, h26, h27, h28, h29, h30, h31, h32, h33, h34, h35⟩
  simp only [] at *
  subst hpc
  simp [added, lastDone, grace] at *
  try casesm* _ ∧ _
  subst_vars
  try simp at *
  by_cases hlt : started < cfg.services <;> simp [StartServer, hlt]

  all_goals
    constructor <;> first
    | (first | exact hraw.panicIff | exact hraw.subscr | exact hraw.subsEq | exact hraw.stops |
        exact hraw.startedLe | exact hraw.startedLt | exact hraw.startedAll |
        exact hraw.startedZero | exact hraw.counter | exact hraw.killedSubs | exact hraw.doneLt |
        exact hraw.sacLe | exact hraw.passed | exact hraw.noToken | exact hraw.merged |
        exact hraw.nilCtx | exact hraw.wIdle | exact hraw.noWctx | exact hraw.armedOff |
        exact hraw.retW | exact hraw.wLate | exact hraw.wExit | exact hraw.obs | exact hraw.cLe |
        exact hraw.frozenC | exact hraw.immediate | exact hraw.pending | exact hraw.dl |
        exact hraw.wAt | exact hraw.retEq | exact hraw.viaTimer | exact hraw.viaWaiter |
        exact hraw.frozenW | exact hraw.lastLe | exact hraw.timerLate)
    | ((try simp [StartServer, NotifyContext, stop, cancelSignalCtx, WithTimeout,
      cancelWaiterCtx, wgAdd, waiter, timer, timerEnabled, parentCancel, tokenLive, osSignal,
      observe, done, advance, urgent, mainEnabled, waiterEnabled, added, lastDone, grace]) <;>
    first
    | assumption
    | omega
    | (intros; omega)
    | (intros; exfalso; omega)
    | (intro i x hm; have := h11 i x hm; omega)
    | (intro ha; have := h12 ha; omega)
    | (constructor <;> assumption)
    | (intro ha hb; have := h32 ha hb; omega)
    | (intro ha hb hc hd; have := h31 hb ha; have := h29 hb; omega)
    | (intro ha; have := h28 ha; have := hd ha; omega)
    | (intro ha; have := h28 ha; omega)
    | (intro ha; have := h29 ha; omega)
    | (intro ha; have := h32 ha; omega)
    | (intro ha hb hc; have := h31 ha; omega)
    | (apply List.eq_nil_of_length_eq_zero; omega)
    | (intro o ho; have hobs := h23 o ho; obtain ⟨oa, ob, oc⟩ := hobs
       first
       | omega
       | (refine ⟨by omega, by omega, fun hc => ?_⟩
          first
          | (have hq := oc hc; omega)
          | (exact oc hc)
          | (have h3 := oc hc; exact ⟨h3.1, by omega⟩)
          | (simp [oc] at hc)
          | (have hq := oc hc; simp_all; done)
          | (have hq := oc hc; simp_all; omega)))
    | (refine ⟨⟨by omega, fun hx => ⟨hx, h12 hx⟩⟩, h23⟩))

set_option maxHeartbeats 1000000 in
theorem inv_main_l46 (cfg : Config) (s : State) (h : Inv cfg s) (ha : s.panicked = false)
    (hk : s.killed = false) (hpc : s.pc = .l46) : Inv cfg (StartServer cfg s) := by
  rcases s with ⟨pc, wpc, now, ctxDone, signalCtx, subscribed, subs, stopCalls, sigSeen, wg,
    panicked, killed, started, doneLog, obsLog, waiterCtx, armed, deadline, cancelAt, sac, wAt,
    byTimer, retAt⟩
  have hlen := doneLog_length_le cfg _ h ha
  have hraw := h
  rcases h with ⟨h1, h2, h3, h4, h5, h6, h7, h8, h9, h10, h11, h12, h13, h14, h15, h16, h17, h18,
    h19, h20, h21, h22, h23, h24, h25, h26, h27, h28, h29, h30, h31, h32, h33, h34, h35⟩
  simp only [] at *
  subst hpc
  simp [added, lastDone, grace] at *
  try casesm* _ ∧ _
  subst_vars
  try simp at *
  cases signalCtx <;> simp [StartServer] at *

  all_goals
    constructor <;> first
    | (first | exact hraw.panicIff | exact hraw.subscr | exact hraw.subsEq | exact hraw.stops |
        exact hraw.startedLe | exact hraw.startedLt | exact hraw.startedAll |
        exact hraw.startedZero | exact hraw.counter | exact hraw.killedSubs | exact hraw.doneLt |
        exact hraw.sacLe | exact hraw.passed | exact hraw.noToken | exact hraw.merged |
        exact hraw.nilCtx | exact hraw.wIdle | exact hraw.noWctx | exact hraw.armedOff |
        exact hraw.retW | exact hraw.wLate | exact hraw.wExit | exact hraw.obs | exact hraw.cLe |
        exact hraw.frozenC | exact hraw.immediate | exact hraw.pending | exact hraw.dl |
        exact hraw.wAt | exact hraw.retEq | exact hraw.viaTimer | exact hraw.viaWaiter |
        exact hraw.frozenW | exact hraw.lastLe | exact hraw.timerLate)
    | ((try simp [StartServer, NotifyContext, stop, cancelSignalCtx, WithTimeout,
      cancelWaiterCtx, wgAdd, waiter, timer, timerEnabled, parentCancel, tokenLive, osSignal,
      observe, done, advance, urgent, mainEnabled, waiterEnabled, added, lastDone, grace]) <;>
    first
    | assumption
    | omega
    | (intros; omega)
    | (intros; exfalso; omega)
    | (intro i x hm; have := h11 i x hm; omega)
    | (intro ha; have := h12 ha; omega)
    | (constructor <;> assumption)
    | (intro ha hb; have := h32 ha hb; omega)
    | (intro ha hb hc hd; have := h31 hb ha; have := h29 hb; omega)
    | (intro ha; have := h28 ha; have := hd ha; omega)
    | (intro ha; have := h28 ha; omega)
    | (intro ha; have := h29 ha; omega)
    | (intro ha; have := h32 ha; omega)
    | (intro ha hb hc; have := h31 ha; omega)
    | (apply List.eq_nil_of_length_eq_zero; omega)
    | (intro o ho; have hobs := h23 o ho; obtain ⟨oa, ob, oc⟩ := hobs
       first
       | omega
       | (refine ⟨by omega, by omega, fun hc => ?_⟩
          first
          | (have hq := oc hc; omega)
          | (exact oc hc)
          | (have h3 := oc hc; exact ⟨h3.1, by omega⟩)
          | (simp [oc] at hc)
          | (have hq := oc hc; simp_all; done)
          | (have hq := oc hc; simp_all; omega)))
    | (refine ⟨⟨by omega, fun hx => ⟨hx, h12 hx⟩⟩, h23⟩))

set_option maxHeartbeats 1000000 in
theorem inv_main_l49 (cfg : Config) (s : State) (h : Inv cfg s) (ha : s.panicked = false)
    (hk : s.killed = false) (hpc : s.pc = .l49) : Inv cfg (StartServer cfg s) := by
  rcases s with ⟨pc, wpc, now, ctxDone, signalCtx, subscribed, subs, stopCalls, sigSeen, wg,
    panicked, killed, started, doneLog, obsLog, waiterCtx, armed, deadline, cancelAt, sac, wAt,
    byTimer, retAt⟩
  have hlen := doneLog_length_le cfg _ h ha
  have hraw := h
  rcases h with ⟨h1, h2, h3, h4, h5, h6, h7, h8, h9, h10, h11, h12, h13, h14, h15, h16, h17, h18,
    h19, h20, h21, h22, h23, h24, h25, h26, h27, h28, h29, h30, h31, h32, h33, h34, h35⟩
  simp only [] at *
  subst hpc
  simp [added, lastDone, grace] at *
  try casesm* _ ∧ _
  subst_vars
  try simp at *
  by_cases hG : cfg.waiterTimeOut ≤ 0 <;> simp [StartServer, WithTimeout, hG]

  all_goals
    constructor <;> first
    | (first | exact hraw.panicIff | exact hraw.subscr | exact hraw.subsEq | exact hraw.stops |
        exact hraw.startedLe | exact hraw.startedLt | exact hraw.startedAll |
        exact hraw.startedZero | exact hraw.counter | exact hraw.killedSubs | exact hraw.doneLt |
        exact hraw.sacLe | exact hraw.passed | exact hraw.noToken | exact hraw.merged |
        exact hraw.nilCtx | exact hraw.wIdle | exact hraw.noWctx | exact hraw.armedOff |
        exact hraw.retW | exact hraw.wLate | exact hraw.wExit | exact hraw.obs | exact hraw.cLe |
        exact hraw.frozenC | exact hraw.immediate | exact hraw.pending | exact hraw.dl |
        exact hraw.wAt | exact hraw.retEq | exact hraw.viaTimer | exact hraw.viaWaiter |
        exact hraw.frozenW | exact hraw.lastLe | exact hraw.timerLate)
    | ((try simp [StartServer, NotifyContext, stop, cancelSignalCtx, WithTimeout,
      cancelWaiterCtx, wgAdd, waiter, timer, timerEnabled, parentCancel, tokenLive, osSignal,
      observe, done, advance, urgent, mainEnabled, waiterEnabled, added, lastDone, grace]) <;>
    first
    | assumption
    | omega
    | (intros; omega)
    | (intros; exfalso; omega)
    | (intro i x hm; have := h11 i x hm; omega)
    | (intro ha; have := h12 ha; omega)
    | (constructor <;> assumption)
    | (intro ha hb; have := h32 ha hb; omega)
    | (intro ha hb hc hd; have := h31 hb ha; have := h29 hb; omega)
    | (intro ha; have := h28 ha; have := hd ha; omega)
    | (intro ha; have := h28 ha; omega)
    | (intro ha; have := h29 ha; omega)
    | (intro ha; have := h32 ha; omega)
    | (intro ha hb hc; have := h31 ha; omega)
    | (apply List.eq_nil_of_length_eq_zero; omega)
    | (intro o ho; have hobs := h23 o ho; obtain ⟨oa, ob, oc⟩ := hobs
       first
       | omega
       | (refine ⟨by omega, by omega, fun hc => ?_⟩
          first
          | (have hq := oc hc; omega)
          | (exact oc hc)
          | (have h3 := oc hc; exact ⟨h3.1, by omega⟩)
          | (simp [oc] at hc)
          | (have hq := oc hc; simp_all; done)
          | (have hq := oc hc; simp_all; omega)))
    | (refine ⟨⟨by omega, fun hx => ⟨hx, h12 hx⟩⟩, h23⟩))

set_option maxHeartbeats 1000000 in
theorem inv_main_l51 (cfg : Config) (s : State) (h : Inv cfg s) (ha : s.panicked = false)
    (hk : s.killed = false) (hpc : s.pc = .l51) : Inv cfg (StartServer cfg s) := by
  rcases s with ⟨pc, wpc, now, ctxDone, signalCtx, subscribed, subs, stopCalls, sigSeen, wg,
    panicked, killed, started, doneLog, obsLog, waiterCtx, armed, deadline, cancelAt, sac, wAt,
    byTimer, retAt⟩
  have hlen := doneLog_length_le cfg _ h ha
  have hraw := h
  rcases h with ⟨h1, h2, h3, h4, h5, h6, h7, h8, h9, h10, h11, h12, h13, h14, h15, h16, h17, h18,
    h19, h20, h21, h22, h23, h24, h25, h26, h27, h28, h29, h30, h31, h32, h33, h34, h35⟩
  simp only [] at *
  subst hpc
  simp [added, lastDone, grace] at *
  try casesm* _ ∧ _
  subst_vars
  try simp at *
  cases waiterCtx <;> simp [StartServer] at *

  all_goals
    constructor <;> first
    | (first | exact hraw.panicIff | exact hraw.subscr | exact hraw.subsEq | exact hraw.stops |
        exact hraw.startedLe | exact hraw.startedLt | exact hraw.startedAll |
        exact hraw.startedZero | exact hraw.counter | exact hraw.killedSubs | exact hraw.doneLt |
        exact hraw.sacLe | exact hraw.passed | exact hraw.noToken | exact hraw.merged |
        exact hraw.nilCtx | exact hraw.wIdle | exact hraw.noWctx | exact hraw.armedOff |
        exact hraw.retW | exact hraw.wLate | exact hraw.wExit | exact hraw.obs | exact hraw.cLe |
        exact hraw.frozenC | exact hraw.immediate | exact hraw.pending | exact hraw.dl |
        exact hraw.wAt | exact hraw.retEq | exact hraw.viaTimer | exact hraw.viaWaiter |
        exact hraw.frozenW | exact hraw.lastLe | exact hraw.timerLate)
    | ((try simp [StartServer, NotifyContext, stop, cancelSignalCtx, WithTimeout,
      cancelWaiterCtx, wgAdd, waiter, timer, timerEnabled, parentCancel, tokenLive, osSignal,
      observe, done, advance, urgent, mainEnabled, waiterEnabled, added, lastDone, grace]) <;>
    first
    | assumption
    | omega
    | (intros; omega)
    | (intros; exfalso; omega)
    | (intro i x hm; have := h11 i x hm; omega)
    | (intro ha; have := h12 ha; omega)
    | (constructor <;> assumption)
    | (intro ha hb; have := h32 ha hb; omega)
    | (intro ha hb hc hd; have := h31 hb ha; have := h29 hb; omega)
    | (intro ha; have := h28 ha; have := hd ha; omega)
    | (intro ha; have := h28 ha; omega)
    | (intro ha; have := h29 ha; omega)
    | (intro ha; have := h32 ha; omega)
    | (intro ha hb hc; have := h31 ha; omega)
    | (apply List.eq_nil_of_length_eq_zero; omega)
    | (intro o ho; have hobs := h23 o ho; obtain ⟨oa, ob, oc⟩ := hobs
       first
       | omega
       | (refine ⟨by omega, by omega, fun hc => ?_⟩
          first
          | (have hq := oc hc; omega)
          | (exact oc hc)
          | (have h3 := oc hc; exact ⟨h3.1, by omega⟩)
          | (simp [oc] at hc)
          | (have hq := oc hc; simp_all; done)
          | (have hq := oc hc; simp_all; omega)))
    | (refine ⟨⟨by omega, fun hx => ⟨hx, h12 hx⟩⟩, h23⟩))

set_option maxHeartbeats 1000000 in
theorem inv_done_a (cfg : Config) (s : State) (h : Inv cfg s) (ha : s.panicked = false)
    (hk : s.killed = false) (i : Nat) (hi : i < s.started) : Inv cfg (done i s) := by
  have he : done i s = wgAdd (-1) { s with doneLog := (i, s.now) :: s.doneLog } := by simp [done, hi]
  rw [he]
  rcases s with ⟨pc, wpc, now, ctxDone, signalCtx, subscribed, subs, stopCalls, sigSeen, wg,
    panicked, killed, started, doneLog, obsLog, waiterCtx, armed, deadline, cancelAt, sac, wAt,
    byTimer, retAt⟩
  have hlen := doneLog_length_le cfg _ h ha
  have hraw := h
  rcases h with ⟨h1, h2, h3, h4, h5, h6, h7, h8, h9, h10, h11, h12, h13, h14, h15, h16, h17, h18,
    h19, h20, h21, h22, h23, h24, h25, h26, h27, h28, h29, h30, h31, h32, h33, h34, h35⟩
  simp only [] at *
  cases pc <;> cases wpc <;> (try (simp at h17; done)) <;>
    (try (simp at h8 hi; omega; done)) <;>
    simp [added, lastDone, grace, urgent, mainEnabled, waiterEnabled, timerEnabled] at * <;>
    (try casesm* _ ∧ _) <;> subst_vars <;> (try simp at *) <;>
    (try casesm* _ ∧ _) <;> subst_vars <;> (try simp at *)

  all_goals
    constructor <;> first
    | (first | exact hraw.panicIff | exact hraw.subscr | exact hraw.subsEq | exact hraw.stops |
        exact hraw.startedLe | exact hraw.startedLt | exact hraw.startedAll |
        exact hraw.startedZero | exact hraw.counter | exact hraw.killedSubs | exact hraw.doneLt |
        exact hraw.sacLe | exact hraw.passed | exact hraw.noToken | exact hraw.merged |
        exact hraw.nilCtx | exact hraw.wIdle | exact hraw.noWctx | exact hraw.armedOff |
        exact hraw.retW | exact hraw.wLate | exact hraw.wExit | exact hraw.obs | exact hraw.cLe |
        exact hraw.frozenC | exact hraw.immediate | exact hraw.pending | exact hraw.dl |
        exact hraw.wAt | exact hraw.retEq | exact hraw.viaTimer | exact hraw.viaWaiter |
        exact hraw.frozenW | exact hraw.lastLe | exact hraw.timerLate)
    | ((try simp [StartServer, NotifyContext, stop, cancelSignalCtx, WithTimeout,
      cancelWaiterCtx, wgAdd, waiter, timer, timerEnabled, parentCancel, tokenLive, osSignal,
      observe, done, advance, urgent, mainEnabled, waiterEnabled, added, lastDone, grace]) <;>
    first
    | assumption
    | omega
    | (intros; omega)
    | (intros; exfalso; omega)
    | (intro i x hm; have := h11 i x hm; omega)
    | (intro ha; have := h12 ha; omega)
    | (constructor <;> assumption)
    | (intro ha hb; have := h32 ha hb; omega)
    | (intro ha hb hc hd; have := h31 hb ha; have := h29 hb; omega)
    | (intro ha; have := h28 ha; have := hd ha; omega)
    | (intro ha; have := h28 ha; omega)
    | (intro ha; have := h29 ha; omega)
    | (intro ha; have := h32 ha; omega)
    | (intro ha hb hc; have := h31 ha; omega)
    | (apply List.eq_nil_of_length_eq_zero; omega)
    | (intro o ho; have hobs := h23 o ho; obtain ⟨oa, ob, oc⟩ := hobs
       first
       | omega
       | (refine ⟨by omega, by omega, fun hc => ?_⟩
          first
          | (have hq := oc hc; omega)
          | (exact oc hc)
          | (have h3 := oc hc; exact ⟨h3.1, by omega⟩)
          | (simp [oc] at hc)
          | (have hq := oc hc; simp_all; done)
          | (have hq := oc hc; simp_all; omega)))
    | (refine ⟨⟨by omega, fun hx => ⟨hx, h12 hx⟩⟩, h23⟩))

set_option maxHeartbeats 1000000 in
theorem inv_waiter_a (cfg : Config) (s : State) (h : Inv cfg s) (ha : s.panicked = false)
    (hk : s.killed = false) (hw : s.wpc = .l55) (h0 : s.wg = 0) : Inv cfg (waiter s) := by
  have he : waiter s = { s with wpc := .l56 } := by simp [waiter, hw, h0]
  rw [he]
  rcases s with ⟨pc, wpc, now, ctxDone, signalCtx, subscribed, subs, stopCalls, sigSeen, wg,
    panicked, killed, started, doneLog, obsLog, waiterCtx, armed, deadline, cancelAt, sac, wAt,
    byTimer, retAt⟩
  have hlen := doneLog_length_le cfg _ h ha
  have hraw := h
  rcases h with ⟨h1, h2, h3, h4, h5, h6, h7, h8, h9, h10, h11, h12, h13, h14, h15, h16, h17, h18,
    h19, h20, h21, h22, h23, h24, h25, h26, h27, h28, h29, h30, h31, h32, h33, h34, h35⟩
  simp only [] at *
  cases pc <;> cases wpc <;> (try (simp at h17; done)) <;>
    simp [added, lastDone, grace, urgent, mainEnabled, waiterEnabled, timerEnabled] at * <;>
    (try casesm* _ ∧ _) <;> subst_vars <;> (try simp at *) <;>
    (try casesm* _ ∧ _) <;> subst_vars <;> (try simp at *)

  all_goals
    constructor <;> first
    | (first | exact hraw.panicIff | exact hraw.subscr | exact hraw.subsEq | exact hraw.stops |
        exact hraw.startedLe | exact hraw.startedLt | exact hraw.startedAll |
        exact hraw.startedZero | exact hraw.counter | exact hraw.killedSubs | exact hraw.doneLt |
        exact hraw.sacLe | exact hraw.passed | exact hraw.noToken | exact hraw.merged |
        exact hraw.nilCtx | exact hraw.wIdle | exact hraw.noWctx | exact hraw.armedOff |
        exact hraw.retW | exact hraw.wLate | exact hraw.wExit | exact hraw.obs | exact hraw.cLe |
        exact hraw.frozenC | exact hraw.immediate | exact hraw.pending | exact hraw.dl |
        exact hraw.wAt | exact hraw.retEq | exact hraw.viaTimer | exact hraw.viaWaiter |
        exact hraw.frozenW | exact hraw.lastLe | exact hraw.timerLate)
    | ((try simp [StartServer, NotifyContext, stop, cancelSignalCtx, WithTimeout,
      cancelWaiterCtx, wgAdd, waiter, timer, timerEnabled, parentCancel, tokenLive, osSignal,
      observe, done, advance, urgent, mainEnabled, waiterEnabled, added, lastDone, grace]) <;>
    first
    | assumption
    | omega
    | (intros; omega)
    | (intros; exfalso; omega)
    | (intro i x hm; have := h11 i x hm; omega)
    | (intro ha; have := h12 ha; omega)
    | (constructor <;> assumption)
    | (intro ha hb; have := h32 ha hb; omega)
    | (intro ha hb hc hd; have := h31 hb ha; have := h29 hb; omega)
    | (intro ha; have := h28 ha; have := hd ha; omega)
    | (intro ha; have := h28 ha; omega)
    | (intro ha; have := h29 ha; omega)
    | (intro ha; have := h32 ha; omega)
    | (intro ha hb hc; have := h31 ha; omega)
    | (apply List.eq_nil_of_length_eq_zero; omega)
    | (intro o ho; have hobs := h23 o ho; obtain ⟨oa, ob, oc⟩ := hobs
       first
       | omega
       | (refine ⟨by omega, by omega, fun hc => ?_⟩
          first
          | (have hq := oc hc; omega)
          | (exact oc hc)
          | (have h3 := oc hc; exact ⟨h3.1, by omega⟩)
          | (simp [oc] at hc)
          | (have hq := oc hc; simp_all; done)
          | (have hq := oc hc; simp_all; omega)))
    | (refine ⟨⟨by omega, fun hx => ⟨hx, h12 hx⟩⟩, h23⟩))

set_option maxHeartbeats 1000000 in
theorem inv_waiter_b (cfg : Config) (s : State) (h : Inv cfg s) (ha : s.panicked = false)
    (hk : s.killed = false) (hw : s.wpc = .l56) (hx : s.waiterCtx = true) :
    Inv cfg (waiter s) := by
  have he : waiter s = { s with wpc := .exit } := by simp [waiter, hw, hx, cancelWaiterCtx]
  rw [he]
  rcases s with ⟨pc, wpc, now, ctxDone, signalCtx, subscribed, subs, stopCalls, sigSeen, wg,
    panicked, killed, started, doneLog, obsLog, waiterCtx, armed, deadline, cancelAt, sac, wAt,
    byTimer, retAt⟩
  have hlen := doneLog_length_le cfg _ h ha
  have hraw := h
  rcases h with ⟨h1, h2, h3, h4, h5, h6, h7, h8, h9, h10, h11, h12, h13, h14, h15, h16, h17, h18,
    h19, h20, h21, h22, h23, h24, h25, h26, h27, h28, h29, h30, h31, h32, h33, h34, h35⟩
  simp only [] at *
  cases pc <;> cases wpc <;> (try (simp at h17; done)) <;>
    simp [added, lastDone, grace, urgent, mainEnabled, waiterEnabled, timerEnabled] at * <;>
    (try casesm* _ ∧ _) <;> subst_vars <;> (try simp at *) <;>
    (try casesm* _ ∧ _) <;> subst_vars <;> (try simp at *)

  all_goals
    constructor <;> first
    | (first | exact hraw.panicIff | exact hraw.subscr | exact hraw.subsEq | exact hraw.stops |
        exact hraw.startedLe | exact hraw.startedLt | exact hraw.startedAll |
        exact hraw.startedZero | exact hraw.counter | exact hraw.killedSubs | exact hraw.doneLt |
        exact hraw.sacLe | exact hraw.passed | exact hraw.noToken | exact hraw.merged |
        exact hraw.nilCtx | exact hraw.wIdle | exact hraw.noWctx | exact hraw.armedOff |
        exact hraw.retW | exact hraw.wLate | exact hraw.wExit | exact hraw.obs | exact hraw.cLe |
        exact hraw.frozenC | exact hraw.immediate | exact hraw.pending | exact hraw.dl |
        exact hraw.wAt | exact hraw.retEq | exact hraw.viaTimer | exact hraw.viaWaiter |
        exact hraw.frozenW | exact hraw.lastLe | exact hraw.timerLate)
    | ((try simp [StartServer, NotifyContext, stop, cancelSignalCtx, WithTimeout,
      cancelWaiterCtx, wgAdd, waiter, timer, timerEnabled, parentCancel, tokenLive, osSignal,
      observe, done, advance, urgent, mainEnabled, waiterEnabled, added, lastDone, grace]) <;>
    first
    | assumption
    | omega
    | (intros; omega)
    | (intros; exfalso; omega)
    | (intro i x hm; have := h11 i x hm; omega)
    | (intro ha; have := h12 ha; omega)
    | (constructor <;> assumption)
    | (intro ha hb; have := h32 ha hb; omega)
    | (intro ha hb hc hd; have := h31 hb ha; have := h29 hb; omega)
    | (intro ha; have := h28 ha; have := hd ha; omega)
    | (intro ha; have := h28 ha; omega)
    | (intro ha; have := h29 ha; omega)
    | (intro ha; have := h32 ha; omega)
    | (intro ha hb hc; have := h31 ha; omega)
    | (apply List.eq_nil_of_length_eq_zero; omega)
    | (intro o ho; have hobs := h23 o ho; obtain ⟨oa, ob, oc⟩ := hobs
       first
       | omega
       | (refine ⟨by omega, by omega, fun hc => ?_⟩
          first
          | (have hq := oc hc; omega)
          | (exact oc hc)
          | (have h3 := oc hc; exact ⟨h3.1, by omega⟩)
          | (simp [oc] at hc)
          | (have hq := oc hc; simp_all; done)
          | (have hq := oc hc; simp_all; omega)))
    | (refine ⟨⟨by omega, fun hx => ⟨hx, h12 hx⟩⟩, h23⟩))

set_option maxHeartbeats 1000000 in
theorem inv_waiter_c (cfg : Config) (s : State) (h : Inv cfg s) (ha : s.panicked = false)
    (hk : s.killed = false) (hw : s.wpc = .l56) (hx : s.waiterCtx = false) :
    Inv cfg (waiter s) := by
  have he : waiter s = { s with waiterCtx := true, armed := false, waiterCtxAt := s.now, byTimer := false, wpc := .exit } := by simp [waiter, hw, hx, cancelWaiterCtx]
  rw [he]
  rcases s with ⟨pc, wpc, now, ctxDone, signalCtx, subscribed, subs, stopCalls, sigSeen, wg,
    panicked, killed, started, doneLog, obsLog, waiterCtx, armed, deadline, cancelAt, sac, wAt,
    byTimer, retAt⟩
  have hlen := doneLog_length_le cfg _ h ha
  have hraw := h
  rcases h with ⟨h1, h2, h3, h4, h5, h6, h7, h8, h9, h10, h11, h12, h13, h14, h15, h16, h17, h18,
    h19, h20, h21, h22, h23, h24, h25, h26, h27, h28, h29, h30, h31, h32, h33, h34, h35⟩
  simp only [] at *
  cases pc <;> cases wpc <;> (try (simp at h17; done)) <;>
    simp [added, lastDone, grace, urgent, mainEnabled, waiterEnabled, timerEnabled] at * <;>
    (try casesm* _ ∧ _) <;> subst_vars <;> (try simp at *) <;>
    (try casesm* _ ∧ _) <;> subst_vars <;> (try simp at *)

  all_goals
    constructor <;> first
    | (first | exact hraw.panicIff | exact hraw.subscr | exact hraw.subsEq | exact hraw.stops |
        exact hraw.startedLe | exact hraw.startedLt | exact hraw.startedAll |
        exact hraw.startedZero | exact hraw.counter | exact hraw.killedSubs | exact hraw.doneLt |
        exact hraw.sacLe | exact hraw.passed | exact hraw.noToken | exact hraw.merged |
        exact hraw.nilCtx | exact hraw.wIdle | exact hraw.noWctx | exact hraw.armedOff |
        exact hraw.retW | exact hraw.wLate | exact hraw.wExit | exact hraw.obs | exact hraw.cLe |
        exact hraw.frozenC | exact hraw.immediate | exact hraw.pending | exact hraw.dl |
        exact hraw.wAt | exact hraw.retEq | exact hraw.viaTimer | exact hraw.viaWaiter |
        exact hraw.frozenW | exact hraw.lastLe | exact hraw.timerLate)
    | ((try simp [StartServer, NotifyContext, stop, cancelSignalCtx, WithTimeout,
      cancelWaiterCtx, wgAdd, waiter, timer, timerEnabled, parentCancel, tokenLive, osSignal,
      observe, done, advance, urgent, mainEnabled, waiterEnabled, added, lastDone, grace]) <;>
    first
    | assumption
    | omega
    | (intros; omega)
    | (intros; exfalso; omega)
    | (intro i x hm; have := h11 i x hm; omega)
    | (intro ha; have := h12 ha; omega)
    | (constructor <;> assumption)
    | (intro ha hb; have := h32 ha hb; omega)
    | (intro ha hb hc hd; have := h31 hb ha; have := h29 hb; omega)
    | (intro ha; have := h28 ha; have := hd ha; omega)
    | (intro ha; have := h28 ha; omega)
    | (intro ha; have := h29 ha; omega)
    | (intro ha; have := h32 ha; omega)
    | (intro ha hb hc; have := h31 ha; omega)
    | (apply List.eq_nil_of_length_eq_zero; omega)
    | (intro o ho; have hobs := h23 o ho; obtain ⟨oa, ob, oc⟩ := hobs
       first
       | omega
       | (refine ⟨by omega, by omega, fun hc => ?_⟩
          first
          | (have hq := oc hc; omega)
          | (exact oc hc)
          | (have h3 := oc hc; exact ⟨h3.1, by omega⟩)
          | (simp [oc] at hc)
          | (have hq := oc hc; simp_all; done)
          | (have hq := oc hc; simp_all; omega)))
    | (refine ⟨⟨by omega, fun hx => ⟨hx, h12 hx⟩⟩, h23⟩))

set_option maxHeartbeats 1000000 in
theorem inv_timer_a (cfg : Config) (s : State) (h : Inv cfg s) (ha : s.panicked = false)
    (hk : s.killed = false) (ht : timerEnabled s = true) : Inv cfg (timer s) := by
  have ht2 : s.armed = true ∧ s.deadline ≤ s.now := by simpa [timerEnabled] using ht
  have hx := h.armedOff ht2.1
  have he : timer s = { s with waiterCtx := true, armed := false, waiterCtxAt := s.now, byTimer := true } := by simp [timer, ht, hx, cancelWaiterCtx]
  rw [he]
  rcases s with ⟨pc, wpc, now, ctxDone, signalCtx, subscribed, subs, stopCalls, sigSeen, wg,
    panicked, killed, started, doneLog, obsLog, waiterCtx, armed, deadline, cancelAt, sac, wAt,
    byTimer, retAt⟩
  have hlen := doneLog_length_le cfg _ h ha
  have hraw := h
  rcases h with ⟨h1, h2, h3, h4, h5, h6, h7, h8, h9, h10, h11, h12, h13, h14, h15, h16, h17, h18,
    h19, h20, h21, h22, h23, h24, h25, h26, h27, h28, h29, h30, h31, h32, h33, h34, h35⟩
  simp only [] at *
  cases pc <;> cases wpc <;> (try (simp at h17; done)) <;>
    (try (simp [ht2.1] at h18; done)) <;>
    simp [added, lastDone, grace, urgent, mainEnabled, waiterEnabled, timerEnabled] at * <;>
    (try casesm* _ ∧ _) <;> subst_vars <;> (try simp at *) <;>
    (try casesm* _ ∧ _) <;> subst_vars <;> (try simp at *)

  all_goals
    constructor <;> first
    | (first | exact hraw.panicIff | exact hraw.subscr | exact hraw.subsEq | exact hraw.stops |
        exact hraw.startedLe | exact hraw.startedLt | exact hraw.startedAll |
        exact hraw.startedZero | exact hraw.counter | exact hraw.killedSubs | exact hraw.doneLt |
        exact hraw.sacLe | exact hraw.passed | exact hraw.noToken | exact hraw.merged |
        exact hraw.nilCtx | exact hraw.wIdle | exact hraw.noWctx | exact hraw.armedOff |
        exact hraw.retW | exact hraw.wLate | exact hraw.wExit | exact hraw.obs | exact hraw.cLe |
        exact hraw.frozenC | exact hraw.immediate | exact hraw.pending | exact hraw.dl |
        exact hraw.wAt | exact hraw.retEq | exact hraw.viaTimer | exact hraw.viaWaiter |
        exact hraw.frozenW | exact hraw.lastLe | exact hraw.timerLate)
    | ((try simp [StartServer, NotifyContext, stop, cancelSignalCtx, WithTimeout,
      cancelWaiterCtx, wgAdd, waiter, timer, timerEnabled, parentCancel, tokenLive, osSignal,
      observe, done, advance, urgent, mainEnabled, waiterEnabled, added, lastDone, grace]) <;>
    first
    | assumption
    | omega
    | (intros; omega)
    | (intros; exfalso; omega)
    | (intro i x hm; have := h11 i x hm; omega)
    | (intro ha; have := h12 ha; omega)
    | (constructor <;> assumption)
    | (intro ha hb; have := h32 ha hb; omega)
    | (intro ha hb hc hd; have := h31 hb ha; have := h29 hb; omega)
    | (intro ha; have := h28 ha; have := hd ha; omega)
    | (intro ha; have := h28 ha; omega)
    | (intro ha; have := h29 ha; omega)
    | (intro ha; have := h32 ha; omega)
    | (intro ha hb hc; have := h31 ha; omega)
    | (apply List.eq_nil_of_length_eq_zero; omega)
    | (intro o ho; have hobs := h23 o ho; obtain ⟨oa, ob, oc⟩ := hobs
       first
       | omega
       | (refine ⟨by omega, by omega, fun hc => ?_⟩
          first
          | (have hq := oc hc; omega)
          | (exact oc hc)
          | (have h3 := oc hc; exact ⟨h3.1, by omega⟩)
          | (simp [oc] at hc)
          | (have hq := oc hc; simp_all; done)
          | (have hq := oc hc; simp_all; omega)))
    | (refine ⟨⟨by omega, fun hx => ⟨hx, h12 hx⟩⟩, h23⟩))

set_option maxHeartbeats 1000000 in
theorem inv_advance_a (cfg : Config) (s : State) (h : Inv cfg s) (ha : s.panicked = false)
    (hk : s.killed = false) (dt : Nat) (hu : urgent s = false) (hd : ¬ (s.armed = true ∧ s.deadline < s.now + dt)) :
    Inv cfg (advance dt s) := by
  have he : advance dt s = { s with now := s.now + dt } := by simp [advance, hu, hd]
  rw [he]
  rcases s with ⟨pc, wpc, now, ctxDone, signalCtx, subscribed, subs, stopCalls, sigSeen, wg,
    panicked, killed, started, doneLog, obsLog, waiterCtx, armed, deadline, cancelAt, sac, wAt,
    byTimer, retAt⟩
  have hlen := doneLog_length_le cfg _ h ha
  have hraw := h
  rcases h with ⟨h1, h2, h3, h4, h5, h6, h7, h8, h9, h10, h11, h12, h13, h14, h15, h16, h17, h18,
    h19, h20, h21, h22, h23, h24, h25, h26, h27, h28, h29, h30, h31, h32, h33, h34, h35⟩
  simp only [] at *
  cases pc <;> cases wpc <;> (try (simp at h17; done)) <;>
    (try (simp [urgent, mainEnabled] at hu; done)) <;>
    simp [added, lastDone, grace, urgent, mainEnabled, waiterEnabled, timerEnabled] at * <;>
    (try casesm* _ ∧ _) <;> subst_vars <;> (try simp at *) <;>
    (try casesm* _ ∧ _) <;> subst_vars <;> (try simp at *)

  all_goals
    constructor <;> first
    | (first | exact hraw.panicIff | exact hraw.subscr | exact hraw.subsEq | exact hraw.stops |
        exact hraw.startedLe | exact hraw.startedLt | exact hraw.startedAll |
        exact hraw.startedZero | exact hraw.counter | exact hraw.killedSubs | exact hraw.doneLt |
        exact hraw.sacLe | exact hraw.passed | exact hraw.noToken | exact hraw.merged |
        exact hraw.nilCtx | exact hraw.wIdle | exact hraw.noWctx | exact hraw.armedOff |
        exact hraw.retW | exact hraw.wLate | exact hraw.wExit | exact hraw.obs | exact hraw.cLe |
        exact hraw.frozenC | exact hraw.immediate | exact hraw.pending | exact hraw.dl |
        exact hraw.wAt | exact hraw.retEq | exact hraw.viaTimer | exact hraw.viaWaiter |
        exact hraw.frozenW | exact hraw.lastLe | exact hraw.timerLate)
    | ((try simp [StartServer, NotifyContext, stop, cancelSignalCtx, WithTimeout,
      cancelWaiterCtx, wgAdd, waiter, timer, timerEnabled, parentCancel, tokenLive, osSignal,
      observe, done, advance, urgent, mainEnabled, waiterEnabled, added, lastDone, grace]) <;>
    first
    | assumption
    | omega
    | (intros; omega)
    | (intros; exfalso; omega)
    | (intro i x hm; have := h11 i x hm; omega)
    | (intro ha; have := h12 ha; omega)
    | (constructor <;> assumption)
    | (intro ha hb; have := h32 ha hb; omega)
    | (intro ha hb hc hd; have := h31 hb ha; have := h29 hb; omega)
    | (intro ha; have := h28 ha; have := hd ha; omega)
    | (intro ha; have := h28 ha; omega)
    | (intro ha; have := h29 ha; omega)
    | (intro ha; have := h32 ha; omega)
    | (intro ha hb hc; have := h31 ha; omega)
    | (apply List.eq_nil_of_length_eq_zero; omega)
    | (intro o ho; have hobs := h23 o ho; obtain ⟨oa, ob, oc⟩ := hobs
       first
       | omega
       | (refine ⟨by omega, by omega, fun hc => ?_⟩
          first
          | (have hq := oc hc; omega)
          | (exact oc hc)
          | (have h3 := oc hc; exact ⟨h3.1, by omega⟩)
          | (simp [oc] at hc)
          | (have hq := oc hc; simp_all; done)
          | (have hq := oc hc; simp_all; omega)))
    | (refine ⟨⟨by omega, fun hx => ⟨hx, h12 hx⟩⟩, h23⟩))

set_option maxHeartbeats 1000000 in
theorem inv_osSignal_a (cfg : Config) (s : State) (h : Inv cfg s) (ha : s.panicked = false)
    (hk : s.killed = false) (hs : s.subscribed = true) (hx : s.signalCtx = false) :
    Inv cfg (osSignal s) := by
  have he : osSignal s = { s with sigSeen := true, signalCtx := true, cancelAt := s.now, startedAtCancel := s.started } := by simp [osSignal, hs, hx, cancelSignalCtx]
  rw [he]
  rcases s with ⟨pc, wpc, now, ctxDone, signalCtx, subscribed, subs, stopCalls, sigSeen, wg,
    panicked, killed, started, doneLog, obsLog, waiterCtx, armed, deadline, cancelAt, sac, wAt,
    byTimer, retAt⟩
  have hlen := doneLog_length_le cfg _ h ha
  have hraw := h
  rcases h with ⟨h1, h2, h3, h4, h5, h6, h7, h8, h9, h10, h11, h12, h13, h14, h15, h16, h17, h18,
    h19, h20, h21, h22, h23, h24, h25, h26, h27, h28, h29, h30, h31, h32, h33, h34, h35⟩
  simp only [] at *
  cases pc <;> cases wpc <;> (try (simp at h17; done)) <;>
    (try (simp [hs] at h2; done)) <;>
    (try (simp [hx] at h13; done)) <;>
    simp [added, lastDone, grace, urgent, mainEnabled, waiterEnabled, timerEnabled] at * <;>
    (try casesm* _ ∧ _) <;> subst_vars <;> (try simp at *) <;>
    (try casesm* _ ∧ _) <;> subst_vars <;> (try simp at *)

  all_goals
    constructor <;> first
    | (first | exact hraw.panicIff | exact hraw.subscr | exact hraw.subsEq | exact hraw.stops |
        exact hraw.startedLe | exact hraw.startedLt | exact hraw.startedAll |
        exact hraw.startedZero | exact hraw.counter | exact hraw.killedSubs | exact hraw.doneLt |
        exact hraw.sacLe | exact hraw.passed | exact hraw.noToken | exact hraw.merged |
        exact hraw.nilCtx | exact hraw.wIdle | exact hraw.noWctx | exact hraw.armedOff |
        exact hraw.retW | exact hraw.wLate | exact hraw.wExit | exact hraw.obs | exact hraw.cLe |
        exact hraw.frozenC | exact hraw.immediate | exact hraw.pending | exact hraw.dl |
        exact hraw.wAt | exact hraw.retEq | exact hraw.viaTimer | exact hraw.viaWaiter |
        exact hraw.frozenW | exact hraw.lastLe | exact hraw.timerLate)
    | ((try simp [StartServer, NotifyContext, stop, cancelSignalCtx, WithTimeout,
      cancelWaiterCtx, wgAdd, waiter, timer, timerEnabled, parentCancel, tokenLive, osSignal,
      observe, done, advance, urgent, mainEnabled, waiterEnabled, added, lastDone, grace]) <;>
    first
    | assumption
    | omega
    | (intros; omega)
    | (intros; exfalso; omega)
    | (intro i x hm; have := h11 i x hm; omega)
    | (intro ha; have := h12 ha; omega)
    | (constructor <;> assumption)
    | (intro ha hb; have := h32 ha hb; omega)
    | (intro ha hb hc hd; have := h31 hb ha; have := h29 hb; omega)
    | (intro ha; have := h28 ha; have := hd ha; omega)
    | (intro ha; have := h28 ha; omega)
    | (intro ha; have := h29 ha; omega)
    | (intro ha; have := h32 ha; omega)
    | (intro ha hb hc; have := h31 ha; omega)
    | (apply List.eq_nil_of_length_eq_zero; omega)
    | (intro o ho; have hobs := h23 o ho; obtain ⟨oa, ob, oc⟩ := hobs
       first
       | omega
       | (refine ⟨by omega, by omega, fun hc => ?_⟩
          first
          | (have hq := oc hc; omega)
          | (exact oc hc)
          | (have h3 := oc hc; exact ⟨h3.1, by omega⟩)
          | (simp [oc] at hc)
          | (have hq := oc hc; simp_all; done)
          | (have hq := oc hc; simp_all; omega)))
    | (refine ⟨⟨by omega, fun hx => ⟨hx, h12 hx⟩⟩, h23⟩))

set_option maxHeartbeats 1000000 in
theorem inv_osSignal_c (cfg : Config) (s : State) (h : Inv cfg s) (ha : s.panicked = false)
    (hk : s.killed = false) (hs : s.subscribed = false) (hx : s.subs = 0) :
    Inv cfg (osSignal s) := by
  have he : osSignal s = { s with killed := true } := by simp [osSignal, hs, hx]
  rw [he]
  rcases s with ⟨pc, wpc, now, ctxDone, signalCtx, subscribed, subs, stopCalls, sigSeen, wg,
    panicked, killed, started, doneLog, obsLog, waiterCtx, armed, deadline, cancelAt, sac, wAt,
    byTimer, retAt⟩
  have hlen := doneLog_length_le cfg _ h ha
  have hraw := h
  rcases h with ⟨h1, h2, h3, h4, h5, h6, h7, h8, h9, h10, h11, h12, h13, h14, h15, h16, h17, h18,
    h19, h20, h21, h22, h23, h24, h25, h26, h27, h28, h29, h30, h31, h32, h33, h34, h35⟩
  simp only [] at *
  simp [added, lastDone, grace] at *
  try casesm* _ ∧ _
  subst_vars
  try simp at *
  all_goals
    constructor <;> first
    | (first | exact hraw.panicIff | exact hraw.subscr | exact hraw.subsEq | exact hraw.stops |
        exact hraw.startedLe | exact hraw.startedLt | exact hraw.startedAll |
        exact hraw.startedZero | exact hraw.counter | exact hraw.killedSubs | exact hraw.doneLt |
        exact hraw.sacLe | exact hraw.passed | exact hraw.noToken | exact hraw.merged |
        exact hraw.nilCtx | exact hraw.wIdle | exact hraw.noWctx | exact hraw.armedOff |
        exact hraw.retW | exact hraw.wLate | exact hraw.wExit | exact hraw.obs | exact hraw.cLe |
        exact hraw.frozenC | exact hraw.immediate | exact hraw.pending | exact hraw.dl |
        exact hraw.wAt | exact hraw.retEq | exact hraw.viaTimer | exact hraw.viaWaiter |
        exact hraw.frozenW | exact hraw.lastLe | exact hraw.timerLate)
    | ((try simp [StartServer, NotifyContext, stop, cancelSignalCtx, WithTimeout,
      cancelWaiterCtx, wgAdd, waiter, timer, timerEnabled, parentCancel, tokenLive, osSignal,
      observe, done, advance, urgent, mainEnabled, waiterEnabled, added, lastDone, grace]) <;>
    first
    | assumption
    | omega
    | (intros; omega)
    | (intros; exfalso; omega)
    | (intro i x hm; have := h11 i x hm; omega)
    | (intro ha; have := h12 ha; omega)
    | (constructor <;> assumption)
    | (intro ha hb; have := h32 ha hb; omega)
    | (intro ha hb hc hd; have := h31 hb ha; have := h29 hb; omega)
    | (intro ha; have := h28 ha; have := hd ha; omega)
    | (intro ha; have := h28 ha; omega)
    | (intro ha; have := h29 ha; omega)
    | (intro ha; have := h32 ha; omega)
    | (intro ha hb hc; have := h31 ha; omega)
    | (apply List.eq_nil_of_length_eq_zero; omega)
    | (intro o ho; have hobs := h23 o ho; obtain ⟨oa, ob, oc⟩ := hobs
       first
       | omega
       | (refine ⟨by omega, by omega, fun hc => ?_⟩
          first
          | (have hq := oc hc; omega)
          | (exact oc hc)
          | (have h3 := oc hc; exact ⟨h3.1, by omega⟩)
          | (simp [oc] at hc)
          | (have hq := oc hc; simp_all; done)
          | (have hq := oc hc; simp_all; omega)))
    | (refine ⟨⟨by omega, fun hx => ⟨hx, h12 hx⟩⟩, h23⟩))

set_option maxHeartbeats 1000000 in
theorem inv_osSignal_b (cfg : Config) (s : State) (h : Inv cfg s) (ha : s.panicked = false)
    (hk : s.killed = false) (hs : s.subscribed = true) (hx : s.signalCtx = true) :
    Inv cfg (osSignal s) := by
  have he : osSignal s = { s with sigSeen := true } := by simp [osSignal, hs, hx, cancelSignalCtx]
  rw [he]
  rcases s with ⟨pc, wpc, now, ctxDone, signalCtx, subscribed, subs, stopCalls, sigSeen, wg,
    panicked, killed, started, doneLog, obsLog, waiterCtx, armed, deadline, cancelAt, sac, wAt,
    byTimer, retAt⟩
  have hlen := doneLog_length_le cfg _ h ha
  have hraw := h
  rcases h with ⟨h1, h2, h3, h4, h5, h6, h7, h8, h9, h10, h11, h12, h13, h14, h15, h16, h17, h18,
    h19, h20, h21, h22, h23, h24, h25, h26, h27, h28, h29, h30, h31, h32, h33, h34, h35⟩
  simp only [] at *
  simp [added, lastDone, grace] at *
  try casesm* _ ∧ _
  subst_vars
  try simp at *
  all_goals
    constructor <;> first
    | (first | exact hraw.panicIff | exact hraw.subscr | exact hraw.subsEq | exact hraw.stops |
        exact hraw.startedLe | exact hraw.startedLt | exact hraw.startedAll |
        exact hraw.startedZero | exact hraw.counter | exact hraw.killedSubs | exact hraw.doneLt |
        exact hraw.sacLe | exact hraw.passed | exact hraw.noToken | exact hraw.merged |
        exact hraw.nilCtx | exact hraw.wIdle | exact hraw.noWctx | exact hraw.armedOff |
        exact hraw.retW | exact hraw.wLate | exact hraw.wExit | exact hraw.obs | exact hraw.cLe |
        exact hraw.frozenC | exact hraw.immediate | exact hraw.pending | exact hraw.dl |
        exact hraw.wAt | exact hraw.retEq | exact hraw.viaTimer | exact hraw.viaWaiter |
        exact hraw.frozenW | exact hraw.lastLe | exact hraw.timerLate)
    | ((try simp [StartServer, NotifyContext, stop, cancelSignalCtx, WithTimeout,
      cancelWaiterCtx, wgAdd, waiter, timer, timerEnabled, parentCancel, tokenLive, osSignal,
      observe, done, advance, urgent, mainEnabled, waiterEnabled, added, lastDone, grace]) <;>
    first
    | assumption
    | omega
    | (intros; omega)
    | (intros; exfalso; omega)
    | (intro i x hm; have := h11 i x hm; omega)
    | (intro ha; have := h12 ha; omega)
    | (constructor <;> assumption)
    | (intro ha hb; have := h32 ha hb; omega)
    | (intro ha hb hc hd; have := h31 hb ha; have := h29 hb; omega)
    | (intro ha; have := h28 ha; have := hd ha; omega)
    | (intro ha; have := h28 ha; omega)
    | (intro ha; have := h29 ha; omega)
    | (intro ha; have := h32 ha; omega)
    | (intro ha hb hc; have := h31 ha; omega)
    | (apply List.eq_nil_of_length_eq_zero; omega)
    | (intro o ho; have hobs := h23 o ho; obtain ⟨oa, ob, oc⟩ := hobs
       first
       | omega
       | (refine ⟨by omega, by omega, fun hc => ?_⟩
          first
          | (have hq := oc hc; omega)
          | (exact oc hc)
          | (have h3 := oc hc; exact ⟨h3.1, by omega⟩)
          | (simp [oc] at hc)
          | (have hq := oc hc; simp_all; done)
          | (have hq := oc hc; simp_all; omega)))
    | (refine ⟨⟨by omega, fun hx => ⟨hx, h12 hx⟩⟩, h23⟩))

set_option maxHeartbeats 1000000 in
theorem inv_observe_a (cfg : Config) (s : State) (h : Inv cfg s) (ha : s.panicked = false)
    (hk : s.killed = false) (i : Nat) (hi : i < s.started) : Inv cfg (observe i s) := by
  have he : observe i s = { s with obsLog := { idx := i, cancelled := s.signalCtx, startedThen := s.started } :: s.obsLog } := by simp [observe, hi]
  rw [he]
  rcases s with ⟨pc, wpc, now, ctxDone, signalCtx, subscribed, subs, stopCalls, sigSeen, wg,
    panicked, killed, started, doneLog, obsLog, waiterCtx, armed, deadline, cancelAt, sac, wAt,
    byTimer, retAt⟩
  have hlen := doneLog_length_le cfg _ h ha
  have hraw := h
  rcases h with ⟨h1, h2, h3, h4, h5, h6, h7, h8, h9, h10, h11, h12, h13, h14, h15, h16, h17, h18,
    h19, h20, h21, h22, h23, h24, h25, h26, h27, h28, h29, h30, h31, h32, h33, h34, h35⟩
  simp only [] at *
  simp [added, lastDone, grace] at *
  try casesm* _ ∧ _
  subst_vars
  try simp at *
  all_goals
    constructor <;> first
    | (first | exact hraw.panicIff | exact hraw.subscr | exact hraw.subsEq | exact hraw.stops |
        exact hraw.startedLe | exact hraw.startedLt | exact hraw.startedAll |
        exact hraw.startedZero | exact hraw.counter | exact hraw.killedSubs | exact hraw.doneLt |
        exact hraw.sacLe | exact hraw.passed | exact hraw.noToken | exact hraw.merged |
        exact hraw.nilCtx | exact hraw.wIdle | exact hraw.noWctx | exact hraw.armedOff |
        exact hraw.retW | exact hraw.wLate | exact hraw.wExit | exact hraw.obs | exact hraw.cLe |
        exact hraw.frozenC | exact hraw.immediate | exact hraw.pending | exact hraw.dl |
        exact hraw.wAt | exact hraw.retEq | exact hraw.viaTimer | exact hraw.viaWaiter |
        exact hraw.frozenW | exact hraw.lastLe | exact hraw.timerLate)
    | ((try simp [StartServer, NotifyContext, stop, cancelSignalCtx, WithTimeout,
      cancelWaiterCtx, wgAdd, waiter, timer, timerEnabled, parentCancel, tokenLive, osSignal,
      observe, done, advance, urgent, mainEnabled, waiterEnabled, added, lastDone, grace]) <;>
    first
    | assumption
    | omega
    | (intros; omega)
    | (intros; exfalso; omega)
    | (intro i x hm; have := h11 i x hm; omega)
    | (intro ha; have := h12 ha; omega)
    | (constructor <;> assumption)
    | (intro ha hb; have := h32 ha hb; omega)
    | (intro ha hb hc hd; have := h31 hb ha; have := h29 hb; omega)
    | (intro ha; have := h28 ha; have := hd ha; omega)
    | (intro ha; have := h28 ha; omega)
    | (intro ha; have := h29 ha; omega)
    | (intro ha; have := h32 ha; omega)
    | (intro ha hb hc; have := h31 ha; omega)
    | (apply List.eq_nil_of_length_eq_zero; omega)
    | (intro o ho; have hobs := h23 o ho; obtain ⟨oa, ob, oc⟩ := hobs
       first
       | omega
       | (refine ⟨by omega, by omega, fun hc => ?_⟩
          first
          | (have hq := oc hc; omega)
          | (exact oc hc)
          | (have h3 := oc hc; exact ⟨h3.1, by omega⟩)
          | (simp [oc] at hc)
          | (have hq := oc hc; simp_all; done)
          | (have hq := oc hc; simp_all; omega)))
    | (refine ⟨⟨by omega, fun hx => ⟨hx, h12 hx⟩⟩, h23⟩))

set_option maxHeartbeats 1000000 in
theorem inv_parent_a (cfg : Config) (s : State) (h : Inv cfg s) (ha : s.panicked = false)
    (hk : s.killed = false) (b : Bool) (hc : cfg.ctx = some b) (hl : tokenLive s = true) (hx : s.signalCtx = false) :
    Inv cfg (parentCancel cfg s) := by
  have hnn : ¬ cfg.ctx = none := by simp [hc]
  have he : parentCancel cfg s = { s with ctxDone := true, signalCtx := true, cancelAt := s.now, startedAtCancel := s.started } := by simp [parentCancel, hc, hl, hx, cancelSignalCtx]
  rw [he]
  rcases s with ⟨pc, wpc, now, ctxDone, signalCtx, subscribed, subs, stopCalls, sigSeen, wg,
    panicked, killed, started, doneLog, obsLog, waiterCtx, armed, deadline, cancelAt, sac, wAt,
    byTimer, retAt⟩
  have hlen := doneLog_length_le cfg _ h ha
  have hraw := h
  rcases h with ⟨h1, h2, h3, h4, h5, h6, h7, h8, h9, h10, h11, h12, h13, h14, h15, h16, h17, h18,
    h19, h20, h21, h22, h23, h24, h25, h26, h27, h28, h29, h30, h31, h32, h33, h34, h35⟩
  simp only [] at *
  cases pc <;> cases wpc <;> (try (simp at h17; done)) <;>
    (try (simp [tokenLive] at hl; done)) <;>
    (try (simp [hx] at h13; done)) <;>
    simp [added, lastDone, grace, urgent, mainEnabled, waiterEnabled, timerEnabled] at * <;>
    (try casesm* _ ∧ _) <;> subst_vars <;> (try simp at *) <;>
    (try casesm* _ ∧ _) <;> subst_vars <;> (try simp at *)

  all_goals
    constructor <;> first
    | (first | exact hraw.panicIff | exact hraw.subscr | exact hraw.subsEq | exact hraw.stops |
        exact hraw.startedLe | exact hraw.startedLt | exact hraw.startedAll |
        exact hraw.startedZero | exact hraw.counter | exact hraw.killedSubs | exact hraw.doneLt |
        exact hraw.sacLe | exact hraw.passed | exact hraw.noToken | exact hraw.merged |
        exact hraw.nilCtx | exact hraw.wIdle | exact hraw.noWctx | exact hraw.armedOff |
        exact hraw.retW | exact hraw.wLate | exact hraw.wExit | exact hraw.obs | exact hraw.cLe |
        exact hraw.frozenC | exact hraw.immediate | exact hraw.pending | exact hraw.dl |
        exact hraw.wAt | exact hraw.retEq | exact hraw.viaTimer | exact hraw.viaWaiter |
        exact hraw.frozenW | exact hraw.lastLe | exact hraw.timerLate)
    | ((try simp [StartServer, NotifyContext, stop, cancelSignalCtx, WithTimeout,
      cancelWaiterCtx, wgAdd, waiter, timer, timerEnabled, parentCancel, tokenLive, osSignal,
      observe, done, advance, urgent, mainEnabled, waiterEnabled, added, lastDone, grace]) <;>
    first
    | assumption
    | omega
    | (intros; omega)
    | (intros; exfalso; omega)
    | (intro i x hm; have := h11 i x hm; omega)
    | (intro ha; have := h12 ha; omega)
    | (constructor <;> assumption)
    | (intro ha hb; have := h32 ha hb; omega)
    | (intro ha hb hc hd; have := h31 hb ha; have := h29 hb; omega)
    | (intro ha; have := h28 ha; have := hd ha; omega)
    | (intro ha; have := h28 ha; omega)
    | (intro ha; have := h29 ha; omega)
    | (intro ha; have := h32 ha; omega)
    | (intro ha hb hc; have := h31 ha; omega)
    | (apply List.eq_nil_of_length_eq_zero; omega)
    | (intro o ho; have hobs := h23 o ho; obtain ⟨oa, ob, oc⟩ := hobs
       first
       | omega
       | (refine ⟨by omega, by omega, fun hc => ?_⟩
          first
          | (have hq := oc hc; omega)
          | (exact oc hc)
          | (have h3 := oc hc; exact ⟨h3.1, by omega⟩)
          | (simp [oc] at hc)
          | (have hq := oc hc; simp_all; done)
          | (have hq := oc hc; simp_all; omega)))
    | (refine ⟨⟨by omega, fun hx => ⟨hx, h12 hx⟩⟩, h23⟩))

set_option maxHeartbeats 1000000 in
theorem inv_parent_b (cfg : Config) (s : State) (h : Inv cfg s) (ha : s.panicked = false)
    (hk : s.killed = false) (b : Bool) (hc : cfg.ctx = some b) (hl : tokenLive s = false) :
    Inv cfg (parentCancel cfg s) := by
  have hnn : ¬ cfg.ctx = none := by simp [hc]
  have he : parentCancel cfg s = { s with ctxDone := true } := by simp [parentCancel, hc, hl]
  rw [he]
  rcases s with ⟨pc, wpc, now, ctxDone, signalCtx, subscribed, subs, stopCalls, sigSeen, wg,
    panicked, killed, started, doneLog, obsLog, waiterCtx, armed, deadline, cancelAt, sac, wAt,
    byTimer, retAt⟩
  have hlen := doneLog_length_le cfg _ h ha
  have hraw := h
  rcases h with ⟨h1, h2, h3, h4, h5, h6, h7, h8, h9, h10, h11, h12, h13, h14, h15, h16, h17, h18,
    h19, h20, h21, h22, h23, h24, h25, h26, h27, h28, h29, h30, h31, h32, h33, h34, h35⟩
  simp only [] at *
  cases pc <;> cases wpc <;> (try (simp at h17; done)) <;>
    (try (simp [tokenLive] at hl; done)) <;>
    simp [added, lastDone, grace, urgent, mainEnabled, waiterEnabled, timerEnabled] at * <;>
    (try casesm* _ ∧ _) <;> subst_vars <;> (try simp at *) <;>
    (try casesm* _ ∧ _) <;> subst_vars <;> (try simp at *)

  all_goals
    constructor <;> first
    | (first | exact hraw.panicIff | exact hraw.subscr | exact hraw.subsEq | exact hraw.stops |
        exact hraw.startedLe | exact hraw.startedLt | exact hraw.startedAll |
        exact hraw.startedZero | exact hraw.counter | exact hraw.killedSubs | exact hraw.doneLt |
        exact hraw.sacLe | exact hraw.passed | exact hraw.noToken | exact hraw.merged |
        exact hraw.nilCtx | exact hraw.wIdle | exact hraw.noWctx | exact hraw.armedOff |
        exact hraw.retW | exact hraw.wLate | exact hraw.wExit | exact hraw.obs | exact hraw.cLe |
        exact hraw.frozenC | exact hraw.immediate | exact hraw.pending | exact hraw.dl |
        exact hraw.wAt | exact hraw.retEq | exact hraw.viaTimer | exact hraw.viaWaiter |
        exact hraw.frozenW | exact hraw.lastLe | exact hraw.timerLate)
    | ((try simp [StartServer, NotifyContext, stop, cancelSignalCtx, WithTimeout,
      cancelWaiterCtx, wgAdd, waiter, timer, timerEnabled, parentCancel, tokenLive, osSignal,
      observe, done, advance, urgent, mainEnabled, waiterEnabled, added, lastDone, grace]) <;>
    first
    | assumption
    | omega
    | (intros; omega)
    | (intros; exfalso; omega)
    | (intro i x hm; have := h11 i x hm; omega)
    | (intro ha; have := h12 ha; omega)
    | (constructor <;> assumption)
    | (intro ha hb; have := h32 ha hb; omega)
    | (intro ha hb hc hd; have := h31 hb ha; have := h29 hb; omega)
    | (intro ha; have := h28 ha; have := hd ha; omega)
    | (intro ha; have := h28 ha; omega)
    | (intro ha; have := h29 ha; omega)
    | (intro ha; have := h32 ha; omega)
    | (intro ha hb hc; have := h31 ha; omega)
    | (apply List.eq_nil_of_length_eq_zero; omega)
    | (intro o ho; have hobs := h23 o ho; obtain ⟨oa, ob, oc⟩ := hobs
       first
       | omega
       | (refine ⟨by omega, by omega, fun hc => ?_⟩
          first
          | (have hq := oc hc; omega)
          | (exact oc hc)
          | (have h3 := oc hc; exact ⟨h3.1, by omega⟩)
          | (simp [oc] at hc)
          | (have hq := oc hc; simp_all; done)
          | (have hq := oc hc; simp_all; omega)))
    | (refine ⟨⟨by omega, fun hx => ⟨hx, h12 hx⟩⟩, h23⟩))

set_option maxHeartbeats 1000000 in
theorem inv_parent_c (cfg : Config) (s : State) (h : Inv cfg s) (ha : s.panicked = false)
    (hk : s.killed = false) (b : Bool) (hc : cfg.ctx = some b) (hl : tokenLive s = true) (hx : s.signalCtx = true) :
    Inv cfg (parentCancel cfg s) := by
  have hnn : ¬ cfg.ctx = none := by simp [hc]
  have he : parentCancel cfg s = { s with ctxDone := true } := by simp [parentCancel, hc, hl, hx, cancelSignalCtx]
  rw [he]
  rcases s with ⟨pc, wpc, now, ctxDone, signalCtx, subscribed, subs, stopCalls, sigSeen, wg,
    panicked, killed, started, doneLog, obsLog, waiterCtx, armed, deadline, cancelAt, sac, wAt,
    byTimer, retAt⟩
  have hlen := doneLog_length_le cfg _ h ha
  have hraw := h
  rcases h with ⟨h1, h2, h3, h4, h5, h6, h7, h8, h9, h10, h11, h12, h13, h14, h15, h16, h17, h18,
    h19, h20, h21, h22, h23, h24, h25, h26, h27, h28, h29, h30, h31, h32, h33, h34, h35⟩
  simp only [] at *
  simp [tokenLive] at hl
  simp [added, lastDone, grace] at *
  try casesm* _ ∧ _
  subst_vars
  try simp at *
  all_goals
    constructor <;> first
    | (first | exact hraw.panicIff | exact hraw.subscr | exact hraw.subsEq | exact hraw.stops |
        exact hraw.startedLe | exact hraw.startedLt | exact hraw.startedAll |
        exact hraw.startedZero | exact hraw.counter | exact hraw.killedSubs | exact hraw.doneLt |
        exact hraw.sacLe | exact hraw.passed | exact hraw.noToken | exact hraw.merged |
        exact hraw.nilCtx | exact hraw.wIdle | exact hraw.noWctx | exact hraw.armedOff |
        exact hraw.retW | exact hraw.wLate | exact hraw.wExit | exact hraw.obs | exact hraw.cLe |
        exact hraw.frozenC | exact hraw.immediate | exact hraw.pending | exact hraw.dl |
        exact hraw.wAt | exact hraw.retEq | exact hraw.viaTimer | exact hraw.viaWaiter |
        exact hraw.frozenW | exact hraw.lastLe | exact hraw.timerLate)
    | ((try simp [StartServer, NotifyContext, stop, cancelSignalCtx, WithTimeout,
      cancelWaiterCtx, wgAdd, waiter, timer, timerEnabled, parentCancel, tokenLive, osSignal,
      observe, done, advance, urgent, mainEnabled, waiterEnabled, added, lastDone, grace]) <;>
    first
    | assumption
    | omega
    | (intros; omega)
    | (intros; exfalso; omega)
    | (intro i x hm; have := h11 i x hm; omega)
    | (intro ha; have := h12 ha; omega)
    | (constructor <;> assumption)
    | (intro ha hb; have := h32 ha hb; omega)
    | (intro ha hb hc hd; have := h31 hb ha; have := h29 hb; omega)
    | (intro ha; have := h28 ha; have := hd ha; omega)
    | (intro ha; have := h28 ha; omega)
    | (intro ha; have := h29 ha; omega)
    | (intro ha; have := h32 ha; omega)
    | (intro ha hb hc; have := h31 ha; omega)
    | (apply List.eq_nil_of_length_eq_zero; omega)
    | (intro o ho; have hobs := h23 o ho; obtain ⟨oa, ob, oc⟩ := hobs
       first
       | omega
       | (refine ⟨by omega, by omega, fun hc => ?_⟩
          first
          | (have hq := oc hc; omega)
          | (exact oc hc)
          | (have h3 := oc hc; exact ⟨h3.1, by omega⟩)
          | (simp [oc] at hc)
          | (have hq := oc hc; simp_all; done)
          | (have hq := oc hc; simp_all; omega)))
    | (refine ⟨⟨by omega, fun hx => ⟨hx, h12 hx⟩⟩, h23⟩))

theorem inv_main (cfg : Config) (s : State) (h : Inv cfg s) (ha : s.panicked = false)
    (hk : s.killed = false) : Inv cfg (StartServer cfg s) := by
  cases hpc : s.pc
  · exact inv_main_l33 cfg s h ha hk hpc
  · exact inv_main_l37 cfg s h ha hk hpc
  · exact inv_main_l38 cfg s h ha hk hpc
  · exact inv_main_l41 cfg s h ha hk hpc
  · exact inv_main_l42 cfg s h ha hk hpc
  · exact inv_main_l43 cfg s h ha hk hpc
  · exact inv_main_l46 cfg s h ha hk hpc
  · exact inv_main_l47 cfg s h ha hk hpc
  · exact inv_main_l49 cfg s h ha hk hpc
  · exact inv_main_l50 cfg s h ha hk hpc
  · exact inv_main_l51 cfg s h ha hk hpc
  · exact inv_main_ret cfg s h ha hk hpc

theorem inv_waiter (cfg : Config) (s : State) (h : Inv cfg s) (ha : s.panicked = false)
    (hk : s.killed = false) : Inv cfg (waiter s) := by
  cases hw : s.wpc
  · have he : waiter s = s := by simp [waiter, hw]
    rw [he]; exact h
  · by_cases h0 : s.wg = 0
    · exact inv_waiter_a cfg s h ha hk hw h0
    · have he : waiter s = s := by simp [waiter, hw, h0]
      rw [he]; exact h
  · cases hx : s.waiterCtx
    · exact inv_waiter_c cfg s h ha hk hw hx
    · exact inv_waiter_b cfg s h ha hk hw hx
  · have he : waiter s = s := by simp [waiter, hw]
    rw [he]; exact h

theorem inv_timer (cfg : Config) (s : State) (h : Inv cfg s) (ha : s.panicked = false)
    (hk : s.killed = false) : Inv cfg (timer s) := by
  cases ht : timerEnabled s
  · have he : timer s = s := by simp [timer, ht]
    rw [he]; exact h
  · exact inv_timer_a cfg s h ha hk ht

theorem inv_parentCancel (cfg : Config) (s : State) (h : Inv cfg s)
    (ha : s.panicked = false) (hk : s.killed = false) : Inv cfg (parentCancel cfg s) := by
  cases hc : cfg.ctx with
  | none =>
    have he : parentCancel cfg s = s := by simp [parentCancel, hc]
    rw [he]; exact h
  | some b =>
    cases hl : tokenLive s
    · exact inv_parent_b cfg s h ha hk b hc hl
    · cases hx : s.signalCtx
      · exact inv_parent_a cfg s h ha hk b hc hl hx
      · exact inv_parent_c cfg s h ha hk b hc hl hx

theorem inv_osSignal (cfg : Config) (s : State) (h : Inv cfg s) (ha : s.panicked = false)
    (hk : s.killed = false) : Inv cfg (osSignal s) := by
  cases hs : s.subscribed
  · by_cases hx : s.subs = 0
    · exact inv_osSignal_c cfg s h ha hk hs hx
    · have he : osSignal s = s := by simp [osSignal, hs, hx]
      rw [he]; exact h
  · cases hx : s.signalCtx
    · exact inv_osSignal_a cfg s h ha hk hs hx
    · exact inv_osSignal_b cfg s h ha hk hs hx

theorem inv_observe (cfg : Config) (s : State) (i : Nat) (h : Inv cfg s)
    (ha : s.panicked = false) (hk : s.killed = false) : Inv cfg (observe i s) := by
  by_cases hi : i < s.started
  · exact inv_observe_a cfg s h ha hk i hi
  · have he : observe i s = s := by simp [observe, hi]
    rw [he]; exact h

theorem inv_done (cfg : Config) (s : State) (i : Nat) (h : Inv cfg s)
    (ha : s.panicked = false) (hk : s.killed = false) : Inv cfg (done i s) := by
  by_cases hi : i < s.started
  · exact inv_done_a cfg s h ha hk i hi
  · have he : done i s = s := by simp only [done, hi, if_false]
    rw [he]; exact h

theorem inv_advance (cfg : Config) (s : State) (dt : Nat) (h : Inv cfg s)
    (ha : s.panicked = false) (hk : s.killed = false) : Inv cfg (advance dt s) := by
  cases hu : urgent s
  · by_cases hd : s.armed = true ∧ s.deadline < s.now + dt
    · have he : advance dt s = s := by simp [advance, hu, hd]
      rw [he]; exact h
    · exact inv_advance_a cfg s h ha hk dt hu hd
  · have he : advance dt s = s := by simp [advance, hu]
    rw [he]; exact h

/-- Every event preserves the invariant. -/
theorem inv_step (cfg : Config) (s : State) (e : Event) (h : Inv cfg s) :
    Inv cfg (step cfg s e) := by
  unfold step
  cases hd : dead s
  · obtain ⟨ha, hk⟩ := dead_false s hd
    simp only [Bool.false_eq_true, if_false]
    cases e with
    | main => exact inv_main cfg s h ha hk
    | waiterStep => exact inv_waiter cfg s h ha hk
    | timer => exact inv_timer cfg s h ha hk
    | parentCancel => exact inv_parentCancel cfg s h ha hk
    | osSignal => exact inv_osSignal cfg s h ha hk
    | observe i => exact inv_observe cfg s i h ha hk
    | done i => exact inv_done cfg s i h ha hk
    | advance dt => exact inv_advance cfg s dt h ha hk
  · simpa using h

theorem inv_foldl (cfg : Config) (evs : List Event) (s : State) (h : Inv cfg s) :
    Inv cfg (evs.foldl (step cfg) s) := by
  induction evs generalizing s with
  | nil => exact h
  | cons e es ih => exact ih _ (inv_step cfg s e h)

/-- The invariant holds after every schedule. -/
theorem inv_run (cfg : Config) (evs : List Event) : Inv cfg (run cfg evs) :=
  inv_foldl cfg evs _ (inv_init cfg)

/-! ## Executions of several calls, one after the other -/

/-! ## Signal subscription -/

theorem subsAfterCalls_eq (calls : List (Config × List Event)) (n k : Nat)
    (h : subsAfterCalls n calls = some k) : k = n := by
  induction calls generalizing n with
  | nil => simpa [subsAfterCalls] using h.symm
  | cons c rest ih =>
    obtain ⟨cfg, evs⟩ := c
    simp only [subsAfterCalls] at h
    split at h
    · rename_i hret
      have hi := inv_run { cfg with subs0 := n } evs
      have h1 := hi.subsEq
      have h2 := hi.subscr
      have := ih _ h
      simp [hret] at h2
      simp [h2] at h1
      omega
    · exact absurd h (by simp)

/-- C9: in every state of every execution the number of `stop` calls is 0 up to and
including line 47 and 1 after it, the subscription of the call is registered exactly
between line 37 and line 47, and the process holds its initial number of subscriptions plus
that one; so a call that has returned has called `stop` exactly once and left the number
of subscriptions as it found it, and so does any sequence of calls. -/
theorem signal_subscription_released (cfg : Config) (evs : List Event)
    (calls : List (Config × List Event)) (n k : Nat) :
    ((run cfg evs).stopCalls = if 8 ≤ (run cfg evs).pc.rank then 1 else 0) ∧
    ((run cfg evs).subscribed = true ↔
      (2 ≤ (run cfg evs).pc.rank ∧ (run cfg evs).pc.rank ≤ 7)) ∧
    ((run cfg evs).subs = cfg.subs0 + if (run cfg evs).subscribed then 1 else 0) ∧
    ((run cfg evs).pc = .ret →
      (run cfg evs).stopCalls = 1 ∧ (run cfg evs).subscribed = false ∧
        (run cfg evs).subs = cfg.subs0) ∧
    (subsAfterCalls n calls = some k → k = n) := by
  have hi := inv_run cfg evs
  refine ⟨hi.stops, hi.subscr, hi.subsEq, ?_, subsAfterCalls_eq calls n k⟩
  intro hret
  have h1 := hi.subsEq
  have h2 := hi.subscr
  have h3 := hi.stops
  simp [hret] at h2 h3
  simp [h2] at h1
  exact ⟨h3, h2, h1⟩

theorem signal_subscription_released_witness :
    (run ⟨some false, 200, 2, 3, 0⟩ schedPrompt).stopCalls = 1 ∧
      (run ⟨some false, 200, 2, 3, 0⟩ schedPrompt).subscribed = false ∧
      (run ⟨some false, 200, 2, 3, 0⟩ schedPrompt).subs = 3 ∧
    subsAfterCalls 3 [(⟨some false, 200, 2, 0, 0⟩, schedPrompt),
      (⟨none, 0, 0, 0, 7⟩, [.main, .main, .main, .main, .osSignal, .main, .main, .main, .main,
        .main])] = some 3 :=
  have h := (signal_subscription_released ⟨some false, 200, 2, 3, 0⟩ schedPrompt [] 0 0).2.2.2.1
    (by decide)
  ⟨h.1, h.2.1, h.2.2, by decide⟩

/-! ## The merged cancellation token -/

/-- C5: once `signalCtx` exists (line 37 has been executed) it is cancelled exactly when
the parent context is cancelled or a signal has been delivered to the subscription; with
a nil parent context, exactly when a signal has been delivered. -/
theorem merged_trigger (cfg : Config) (evs : List Event) :
    (2 ≤ (run cfg evs).pc.rank →
      ((run cfg evs).signalCtx = true ↔
        ((run cfg evs).ctxDone = true ∨ (run cfg evs).sigSeen = true))) ∧
    (cfg.ctx = none → 2 ≤ (run cfg evs).pc.rank →
      ((run cfg evs).signalCtx = true ↔ (run cfg evs).sigSeen = true)) := by
  have hi := inv_run cfg evs
  refine ⟨hi.merged, fun hn hr => ?_⟩
  have h1 := hi.merged hr
  have h2 := hi.nilCtx hn
  exact ⟨fun h => (h1.mp h).resolve_left (by simp [h2]), fun h => h1.mpr (Or.inr h)⟩

theorem merged_trigger_witness :
    (run ⟨none, 200, 1, 0, 0⟩ [.main, .main, .main, .parentCancel, .osSignal]).signalCtx = true ∧
    (run ⟨none, 200, 1, 0, 0⟩ [.main, .main, .main, .parentCancel]).signalCtx = false ∧
    (run ⟨some false, 200, 1, 0, 0⟩ [.main, .main, .main, .parentCancel]).signalCtx = true :=
  ⟨((merged_trigger ⟨none, 200, 1, 0, 0⟩ [.main, .main, .main, .parentCancel, .osSignal]).2
      rfl (by decide)).mpr (by decide),
    by decide, by decide⟩

/-- A cancelled token stays cancelled under every event, with its cancellation time. -/
theorem token_stable (cfg : Config) (s : State) (e : Event) (h : s.signalCtx = true) :
    (step cfg s e).signalCtx = true ∧ (step cfg s e).cancelAt = s.cancelAt ∧
      (step cfg s e).startedAtCancel = s.startedAtCancel := by
  unfold step
  split
  · exact ⟨h, rfl, rfl⟩
  · cases e <;>
      simp only [StartServer, waiter, timer, parentCancel, osSignal, observe, done, advance,
        NotifyContext, stop, cancelSignalCtx, WithTimeout, cancelWaiterCtx, wgAdd] <;>
      (repeat' split) <;> simp_all

theorem token_stable_foldl (cfg : Config) (evs : List Event) (s : State)
    (h : s.signalCtx = true) : (evs.foldl (step cfg) s).signalCtx = true := by
  induction evs generalizing s with
  | nil => exact h
  | cons e es ih => exact ih _ (token_stable cfg s e h).1

theorem rises_falls_from (cfg : Config) (evs : List Event) (s : State) :
    rises s.signalCtx ((history cfg s evs).map (·.signalCtx)) =
      (if s.signalCtx = false ∧ (evs.foldl (step cfg) s).signalCtx = true then 1 else 0) ∧
    falls s.signalCtx ((history cfg s evs).map (·.signalCtx)) = 0 := by
  induction evs generalizing s with
  | nil => simp [history, rises, falls]
  | cons e es ih =>
    obtain ⟨ih1, ih2⟩ := ih (step cfg s e)
    simp only [history, List.map_cons, rises, falls, List.foldl_cons, ih1, ih2]
    cases hs : s.signalCtx
    · by_cases hs2 : (step cfg s e).signalCtx = true
      · simp [hs2, token_stable_foldl cfg es _ hs2]
      · simp [hs2]
    · have := (token_stable cfg s e hs).1
      simp [this]

/-- Nothing happens in a dead process. -/
theorem dead_stable (cfg : Config) (s : State) (e : Event) (hd : dead s = true) :
    step cfg s e = s := by
  simp [step, hd]

theorem dead_stable_foldl (cfg : Config) (evs : List Event) (s : State)
    (hd : dead s = true) : evs.foldl (step cfg) s = s := by
  induction evs generalizing s with
  | nil => rfl
  | cons e es ih => simp only [List.foldl_cons, dead_stable cfg s e hd]; exact ih s hd

/-- Only a call of `wg.Done` can make the process panic. -/
theorem panic_only_by_done (cfg : Config) (s : State) (e : Event) (h : Inv cfg s)
    (he : ∀ i, e ≠ .done i) : (step cfg s e).panicked = s.panicked := by
  unfold step
  cases hd : dead s
  · obtain ⟨ha, hk⟩ := dead_false s hd
    have h1 := h.panicIff
    simp [ha] at h1
    simp only [Bool.false_eq_true, if_false]
    cases e with
    | done i => exact absurd rfl (he i)
    | main =>
      simp only [StartServer, NotifyContext, stop, cancelSignalCtx, WithTimeout,
        cancelWaiterCtx, wgAdd]
      (repeat' split) <;> simp_all <;> omega
    | waiterStep =>
      simp only [waiter, cancelWaiterCtx]
      (repeat' split) <;> simp_all
    | timer =>
      simp only [timer, cancelWaiterCtx]
      (repeat' split) <;> simp_all
    | parentCancel =>
      simp only [parentCancel, cancelSignalCtx]
      (repeat' split) <;> simp_all
    | osSignal =>
      simp only [osSignal, cancelSignalCtx]
      (repeat' split) <;> simp_all
    | observe i =>
      simp only [observe]
      (repeat' split) <;> simp_all
    | advance dt =>
      simp only [advance]
      (repeat' split) <;> simp_all
  · simp

/-- C6 (as amended): along every schedule the merged token changes from active to
cancelled once if it ends cancelled and not at all otherwise, and never changes back; a
parent cancellation or a signal that reaches an active token of a live process cancels
it; on a cancelled token every further event (a second parent cancellation, further
signals, the call of `stop`) leaves the token and its cancellation time as they are; a
second parent cancellation changes nothing but the parent's own flag, and a further signal
changes nothing but the record of its delivery as long as some subscription is registered
in the process; and no event other than a call of `wg.Done` makes the process panic. -/
theorem token_transitions_once (cfg : Config) (evs : List Event) (e : Event) :
    rises false ((history cfg (init cfg) evs).map (·.signalCtx)) =
      (if (run cfg evs).signalCtx = true then 1 else 0) ∧
    falls false ((history cfg (init cfg) evs).map (·.signalCtx)) = 0 ∧
    ((run cfg evs).signalCtx = true →
      (step cfg (run cfg evs) e).signalCtx = true ∧
        (step cfg (run cfg evs) e).cancelAt = (run cfg evs).cancelAt ∧
        (step cfg (run cfg evs) e).startedAtCancel = (run cfg evs).startedAtCancel) ∧
    (dead (run cfg evs) = false → cfg.ctx ≠ none → 2 ≤ (run cfg evs).pc.rank →
      (step cfg (run cfg evs) .parentCancel).signalCtx = true) ∧
    (dead (run cfg evs) = false → (run cfg evs).subscribed = true →
      (step cfg (run cfg evs) .osSignal).signalCtx = true) ∧
    ((run cfg evs).signalCtx = true →
      step cfg (run cfg evs) .parentCancel = run cfg evs ∨
      step cfg (run cfg evs) .parentCancel = { run cfg evs with ctxDone := true }) ∧
    ((run cfg evs).signalCtx = true → 0 < (run cfg evs).subs →
      step cfg (run cfg evs) .osSignal = run cfg evs ∨
      step cfg (run cfg evs) .osSignal = { run cfg evs with sigSeen := true }) ∧
    ((∀ i, e ≠ .done i) →
      (step cfg (run cfg evs) e).panicked = (run cfg evs).panicked) := by
  have h := rises_falls_from cfg evs (init cfg)
  have hi := inv_run cfg evs
  refine ⟨?_, ?_, token_stable cfg _ e, ?_, ?_, ?_, ?_, panic_only_by_done cfg _ e hi⟩
  · simpa [init, run] using h.1
  · simpa [init] using h.2
  · intro hd hn hr
    cases hx : cfg.ctx with
    | none => exact absurd hx hn
    | some b =>
      simp only [step, hd, parentCancel, hx, tokenLive, hr, cancelSignalCtx]
      simp
      split <;> simp_all
  · intro hd hs
    simp only [step, hd, osSignal, hs, cancelSignalCtx]
    simp
    split <;> simp_all
  · intro hc
    have hr : 2 ≤ (run cfg evs).pc.rank := by
      by_contra hlt
      have := (hi.noToken (by omega)).1
      simp [hc] at this
    cases hd : dead (run cfg evs)
    · cases hx : cfg.ctx with
      | none => left; simp [step, hd, parentCancel, hx]
      | some b => right; simp [step, hd, parentCancel, hx, tokenLive, hr, cancelSignalCtx, hc]
    · left; exact dead_stable cfg _ _ hd
  · intro hc hs
    cases hd : dead (run cfg evs)
    · cases hb : (run cfg evs).subscribed
      · left
        have : (run cfg evs).subs ≠ 0 := by omega
        simp [step, hd, osSignal, hb, this]
      · right; simp [step, hd, osSignal, hb, cancelSignalCtx, hc]
    · left; exact dead_stable cfg _ _ hd

theorem token_transitions_once_witness :
    (step ⟨some false, 200, 1, 0, 0⟩
        (run ⟨some false, 200, 1, 0, 0⟩ (List.replicate 7 .main ++ [.advance 4, .parentCancel]))
        .osSignal).cancelAt = 4 ∧
      rises false ((history ⟨some false, 200, 1, 0, 0⟩ (init ⟨some false, 200, 1, 0, 0⟩)
        [.main, .main, .main, .parentCancel, .osSignal, .parentCancel, .osSignal]).map
          (·.signalCtx)) = 1 :=
  ⟨((token_transitions_once ⟨some false, 200, 1, 0, 0⟩
      (List.replicate 7 .main ++ [.advance 4, .parentCancel]) .osSignal).2.2.1
        (by decide)).2.1.trans (by decide),
    by decide⟩

/-- C6 as stated fails for a signal that arrives after `stop`: with no other
subscription in the process the token is cancelled by a first signal at clock 5,
StartServer calls `stop` and waits for its one service, and a second signal at clock 105
finds no subscription and terminates the process; the state has changed and the call
does not return. -/
theorem late_signal_counterexample :
    (run ⟨none, 200, 1, 0, 0⟩ schedLateSignal).signalCtx = true ∧
    dead (run ⟨none, 200, 1, 0, 0⟩ schedLateSignal) = false ∧
    (run ⟨none, 200, 1, 0, 0⟩ schedLateSignal).pc = .l51 ∧
    (run ⟨none, 200, 1, 0, 0⟩ schedLateSignal).now = 105 ∧
    step ⟨none, 200, 1, 0, 0⟩ (run ⟨none, 200, 1, 0, 0⟩ schedLateSignal) .osSignal ≠
      run ⟨none, 200, 1, 0, 0⟩ schedLateSignal ∧
    (step ⟨none, 200, 1, 0, 0⟩ (run ⟨none, 200, 1, 0, 0⟩ schedLateSignal) .osSignal).killed
      = true ∧
    (run ⟨none, 200, 1, 0, 0⟩ (schedLateSignal ++ [.osSignal] ++
      drain ⟨none, 200, 1, 0, 0⟩ (run ⟨none, 200, 1, 0, 0⟩ schedLateSignal))).pc = .l51 := by
  decide

/-! ## Start order -/

/-- C4 (as amended): StartServer passes its wait on the merged token only after it has
started every service; a service looks at the token only after it has itself been
started; and a service that sees the token cancelled sees it after the cancellation, when
at least as many services are started as were at the moment of cancellation.  Hence when
the token is cancelled after the start loop has finished, no service sees it cancelled
before every service has been started. -/
theorem no_premature_cancellation (cfg : Config) (evs : List Event) :
    (7 ≤ (run cfg evs).pc.rank →
      (run cfg evs).started = cfg.services ∧ (run cfg evs).signalCtx = true) ∧
    (∀ o ∈ (run cfg evs).obsLog, o.idx < o.startedThen ∧ o.startedThen ≤ cfg.services ∧
      (o.cancelled = true →
        (run cfg evs).signalCtx = true ∧ (run cfg evs).startedAtCancel ≤ o.startedThen)) ∧
    ((run cfg evs).startedAtCancel = cfg.services →
      ∀ o ∈ (run cfg evs).obsLog, o.cancelled = true → o.startedThen = cfg.services) := by
  have hi := inv_run cfg evs
  have hobs : ∀ o ∈ (run cfg evs).obsLog, o.idx < o.startedThen ∧
      o.startedThen ≤ cfg.services ∧ (o.cancelled = true →
        (run cfg evs).signalCtx = true ∧ (run cfg evs).startedAtCancel ≤ o.startedThen) := by
    intro o ho
    obtain ⟨h1, h2, h3⟩ := hi.obs o ho
    exact ⟨h1, le_trans h2 hi.startedLe, h3⟩
  refine ⟨fun hr => ⟨hi.startedAll (by omega), hi.passed hr⟩, hobs, ?_⟩
  intro hs o ho hc
  obtain ⟨_, h2, h3⟩ := hobs o ho
  have := (h3 hc).2
  omega

theorem no_premature_cancellation_witness :
    (run ⟨some false, 200, 2, 0, 0⟩
        (List.replicate 10 .main ++ [.observe 0, .parentCancel, .observe 1])).obsLog =
      [⟨1, true, 2⟩, ⟨0, false, 2⟩] ∧
    (⟨1, true, 2⟩ : Obs).startedThen = 2 :=
  ⟨by decide,
    (no_premature_cancellation ⟨some false, 200, 2, 0, 0⟩
      (List.replicate 10 .main ++ [.observe 0, .parentCancel, .observe 1])).2.2 (by decide)
        ⟨1, true, 2⟩ (by decide) rfl⟩

/-- C4 as stated fails: with a parent context that is already cancelled at the call, the
token is born cancelled at line 37, and service 0 sees it cancelled when only one of the
two services has been started. -/
theorem premature_cancellation_counterexample :
    (run ⟨some true, 200, 2, 0, 0⟩ (List.replicate 6 .main ++ [.observe 0])).obsLog =
      [⟨0, true, 1⟩] ∧
    (run ⟨some true, 200, 2, 0, 0⟩ (List.replicate 6 .main ++ [.observe 0])).started = 1 ∧
    (run ⟨some true, 200, 2, 0, 0⟩ (List.replicate 6 .main ++ [.observe 0])).pc = .l41 ∧
    (1 : Nat) < (⟨some true, 200, 2, 0, 0⟩ : Config).services := by
  decide

/-! ## The completion counter -/

/-- A duplicate-free list of `n` numbers below `n` contains every number below `n`. -/
theorem mem_of_nodup_lt_length (l : List Nat) (n : Nat) (hnd : l.Nodup)
    (hlt : ∀ i ∈ l, i < n) (hlen : l.length = n) (i : Nat) (hi : i < n) : i ∈ l := by
  have hsub : l ⊆ List.range n := fun j hj => List.mem_range.mpr (hlt j hj)
  have hp : l.Perm (List.range n) :=
    (List.subperm_of_subset hnd hsub).perm_of_length_le (by simp [hlen])
  exact hp.mem_iff.mpr (List.mem_range.mpr hi)

/-- A list containing every number below `n` has at least `n` entries. -/
theorem length_ge_of_all_mem (l : List Nat) (n : Nat) (h : ∀ i, i < n → i ∈ l) :
    n ≤ l.length := by
  have hsub : List.range n ⊆ l := fun j hj => h j (List.mem_range.mp hj)
  have := (List.subperm_of_subset (List.nodup_range n) hsub).length_le
  simpa using this

/-- A schedule in which no service has called `Done` more than once has not panicked, and
has at most as many `Done` calls as started services. -/
theorem alive_of_nodup (cfg : Config) (s : State) (h : Inv cfg s)
    (hnd : (s.doneLog.map Prod.fst).Nodup) :
    s.panicked = false ∧ s.doneLog.length ≤ s.started := by
  have hlen : s.doneLog.length ≤ s.started := by
    have := length_le_of_nodup_lt _ _ hnd h.doneLt
    simpa using this
  have h1 := h.panicIff
  have h2 := h.counter
  refine ⟨?_, hlen⟩
  cases hp : s.panicked
  · rfl
  · have := h1.mp hp
    simp only [added] at h2
    split at h2 <;> omega

/-- C10 (as amended): in every state of a schedule in which no service has called `Done`
more than once, the WaitGroup counter equals the number of
`wg.Add(1)` calls executed minus the number of services that have called `Done`; that is
the number of started services minus the number of finished ones, except between
`wg.Add(1)` and the `go` statement of the same iteration, where it is one more.  It is
never negative and the process never panics; only started services are counted.  Once
the start loop has finished the counter is `N` minus the number of finished services, and
it is zero exactly when all `N` have called `Done`. -/
theorem completion_counter (cfg : Config) (evs : List Event)
    (hnd : ((run cfg evs).doneLog.map Prod.fst).Nodup) :
    (run cfg evs).wg = (added (run cfg evs) : Int) - (run cfg evs).doneLog.length ∧
    ((run cfg evs).pc ≠ .l43 →
      (run cfg evs).wg = ((run cfg evs).started : Int) - (run cfg evs).doneLog.length) ∧
    ((run cfg evs).pc = .l43 →
      (run cfg evs).wg = ((run cfg evs).started : Int) + 1 - (run cfg evs).doneLog.length) ∧
    0 ≤ (run cfg evs).wg ∧ (run cfg evs).panicked = false ∧
    (∀ i ∈ (run cfg evs).doneLog.map Prod.fst, i < (run cfg evs).started) ∧
    (6 ≤ (run cfg evs).pc.rank →
      (run cfg evs).wg = (cfg.services : Int) - (run cfg evs).doneLog.length ∧
      ((run cfg evs).wg = 0 ↔
        ∀ i, i < cfg.services → i ∈ (run cfg evs).doneLog.map Prod.fst)) := by
  have hi := inv_run cfg evs
  obtain ⟨hal, hlen⟩ := alive_of_nodup cfg _ hi hnd
  have hc := hi.counter
  refine ⟨hc, ?_, ?_, ?_, hal, hi.doneLt, ?_⟩
  · intro hp; simp [added, hp] at hc; exact hc
  · intro hp; simp [added, hp] at hc; omega
  · simp only [added] at hc; split at hc <;> omega
  · intro hr
    have hs := hi.startedAll hr
    have hp : (run cfg evs).pc ≠ .l43 := by
      intro h; rw [h] at hr; simp at hr
    simp [added, hp, hs] at hc
    refine ⟨hc, ?_⟩
    constructor
    · intro h0 i hlt
      refine mem_of_nodup_lt_length _ _ hnd ?_ ?_ i hlt
      · intro j hj; have := hi.doneLt j hj; omega
      · simp; omega
    · intro hall
      have := length_ge_of_all_mem _ _ hall
      simp at this
      omega

theorem completion_counter_witness :
    (run ⟨some false, 200, 2, 0, 0⟩ (List.replicate 10 .main ++ [.done 1, .done 0])).wg = 0 :=
  ((completion_counter ⟨some false, 200, 2, 0, 0⟩
    (List.replicate 10 .main ++ [.done 1, .done 0]) (by decide)).2.2.2.2.2.2 (by decide)).2.mpr
      (by decide)

/-- C10 as stated fails in the state between `wg.Add(1)` and the `go` statement of the
first iteration: the counter is 1 while no service has been started or has finished. -/
theorem counter_between_add_and_go_counterexample :
    (run ⟨none, 0, 1, 0, 0⟩ (List.replicate 5 .main)).pc = .l43 ∧
    (run ⟨none, 0, 1, 0, 0⟩ (List.replicate 5 .main)).wg ≠
      ((run ⟨none, 0, 1, 0, 0⟩ (List.replicate 5 .main)).started : Int) -
        (run ⟨none, 0, 1, 0, 0⟩ (List.replicate 5 .main)).doneLog.length := by
  decide

/-! ## Return of the call -/

set_option maxHeartbeats 1000000 in
theorem main_progress (cfg : Config) (s : State) (h : Inv cfg s) (hc : s.signalCtx = true)
    (ha : s.panicked = false) :
    (StartServer cfg s).now = s.now ∧ (StartServer cfg s).cancelAt = s.cancelAt ∧
    (StartServer cfg s).signalCtx = true ∧
    (todo cfg s = 0 → StartServer cfg s = s) ∧
    (0 < todo cfg s → todo cfg (StartServer cfg s) < todo cfg s) ∧
    (StartServer cfg s).panicked = false ∧ (StartServer cfg s).killed = s.killed := by
  have h1 := h.panicIff
  have h5 := h.startedLe
  have h6 := h.startedLt
  have h14 := h.noToken
  have h18 := h.noWctx
  rcases s with ⟨pc, wpc, now, ctxDone, signalCtx, subscribed, subs, stopCalls, sigSeen, wg,
    panicked, killed, started, doneLog, obsLog, waiterCtx, armed, deadline, cancelAt, sac, wAt,
    byTimer, retAt⟩
  simp only at hc ha
  subst hc ha
  simp at h1
  cases pc <;> simp at h5 h6 h14 h18 <;>
    simp [StartServer, todo, NotifyContext, stop, cancelSignalCtx, WithTimeout,
      cancelWaiterCtx, wgAdd] <;>
    (try split) <;> (try simp [*]) <;> (try omega)

theorem step_main (cfg : Config) (s : State) (hd : dead s = false) :
    step cfg s .main = StartServer cfg s := by
  simp [step, hd]

theorem mains_settle (cfg : Config) (k : Nat) (s : State) (h : Inv cfg s)
    (hc : s.signalCtx = true) (hd : dead s = false) (hk : todo cfg s ≤ k) :
    todo cfg ((List.replicate k Event.main).foldl (step cfg) s) = 0 ∧
    ((List.replicate k Event.main).foldl (step cfg) s).now = s.now ∧
    ((List.replicate k Event.main).foldl (step cfg) s).cancelAt = s.cancelAt ∧
    ((List.replicate k Event.main).foldl (step cfg) s).signalCtx = true ∧
    dead ((List.replicate k Event.main).foldl (step cfg) s) = false := by
  induction k generalizing s with
  | zero => exact ⟨Nat.le_zero.mp hk, rfl, rfl, hc, hd⟩
  | succ k ih =>
    obtain ⟨ha, hkl⟩ := dead_false s hd
    obtain ⟨h1, h2, h3, h4, h5, h6, h7⟩ := main_progress cfg s h hc ha
    have hi := inv_step cfg s .main h
    rw [step_main cfg s hd] at hi
    simp only [List.replicate_succ, List.foldl_cons, step_main cfg s hd]
    have hk2 : todo cfg (StartServer cfg s) ≤ k := by
      by_cases h0 : todo cfg s = 0
      · rw [h4 h0]; omega
      · have := h5 (by omega); omega
    have hd2 : dead (StartServer cfg s) = false := by simp [dead, h6, h7, hkl]
    obtain ⟨i1, i2, i3, i4, i5⟩ := ih _ hi h3 hd2 hk2
    exact ⟨i1, i2.trans h1, i3.trans h2, i4, i5⟩

/-- A call that has returned stays returned. -/
theorem ret_stable (cfg : Config) (s : State) (e : Event) (h : s.pc = .ret) :
    (step cfg s e).pc = .ret := by
  unfold step
  split
  · exact h
  · cases e <;>
      simp only [StartServer, waiter, timer, parentCancel, osSignal, observe, done, advance,
        NotifyContext, stop, cancelSignalCtx, WithTimeout, cancelWaiterCtx, wgAdd] <;>
      (repeat' split) <;> simp_all

theorem ret_stable_foldl (cfg : Config) (evs : List Event) (s : State) (h : s.pc = .ret) :
    (evs.foldl (step cfg) s).pc = .ret := by
  induction evs generalizing s with
  | nil => exact h
  | cons e es ih => exact ih _ (ret_stable cfg s e h)

set_option maxHeartbeats 1000000 in
theorem finish_settled (cfg : Config) (s : State) (h : Inv cfg s) (hc : s.signalCtx = true)
    (hd : dead s = false) (h0 : todo cfg s = 0) :
    ([Event.waiterStep, .waiterStep, .advance (s.cancelAt + grace cfg - s.now), .timer,
      .main].foldl (step cfg) s).pc = .ret := by
  obtain ⟨g1, g2⟩ := dead_false s hd
  have g17 := h.wIdle
  have g22 := h.wExit
  have g27 := h.pending
  have g19 := h.armedOff
  rcases s with ⟨pc, wpc, now, ctxDone, signalCtx, subscribed, subs, stopCalls, sigSeen, wg,
    panicked, killed, started, doneLog, obsLog, waiterCtx, armed, deadline, cancelAt, sac, wAt,
    byTimer, retAt⟩
  simp only at hc g1 g2
  subst hc g1 g2
  cases pc <;> simp [todo] at h0
  case ret => exact ret_stable_foldl cfg _ _ rfl
  case l51 =>
    subst h0
    simp [grace] at g17 g22 g27
    obtain ⟨gG, ga, gd, gn⟩ := g27
    subst ga gd
    cases wpc <;> simp at g17 g22
    · by_cases hw : wg = 0
      · simp [step, dead, waiter, timer, advance, StartServer, cancelWaiterCtx, urgent, mainEnabled,
          waiterEnabled, timerEnabled, hw]
      · by_cases hd : cancelAt + cfg.waiterTimeOut.toNat ≤ now
        · simp [step, dead, waiter, timer, advance, StartServer, cancelWaiterCtx, urgent, mainEnabled,
            waiterEnabled, timerEnabled, hw, hd]
        · have hd2 : now + (cancelAt + cfg.waiterTimeOut.toNat - now) =
              cancelAt + cfg.waiterTimeOut.toNat := by omega
          simp [step, dead, waiter, timer, advance, StartServer, cancelWaiterCtx, urgent, mainEnabled,
            waiterEnabled, timerEnabled, hw, hd, hd2, grace]
    · simp [step, dead, waiter, timer, advance, StartServer, cancelWaiterCtx, urgent, mainEnabled,
        waiterEnabled, timerEnabled]

/-- Once the merged token is cancelled, the call of a live process returns: the
coordinator's own goroutines, the timer and the clock bring it to its return without any
event of a service. -/
theorem returns_after_drain (cfg : Config) (evs : List Event)
    (hc : (run cfg evs).signalCtx = true) (hd : dead (run cfg evs) = false) :
    (run cfg (evs ++ drain cfg (run cfg evs))).pc = .ret := by
  have hi := inv_run cfg evs
  have hk : todo cfg (run cfg evs) ≤ 3 * cfg.services + 9 := by
    have := hi.startedLe
    unfold todo
    split <;> (try split) <;> omega
  obtain ⟨m1, m2, m3, m4, m5⟩ := mains_settle cfg _ _ hi hc hd hk
  have hi2 : Inv cfg ((List.replicate (3 * cfg.services + 9) Event.main).foldl (step cfg)
      (run cfg evs)) := inv_foldl cfg _ _ hi
  have := finish_settled cfg _ hi2 m4 m5 m1
  rw [m2, m3] at this
  simp only [run, drain, List.foldl_append] at this ⊢
  exact this

theorem cancelAt_stable_foldl (cfg : Config) (evs : List Event) (s : State)
    (h : s.signalCtx = true) : (evs.foldl (step cfg) s).cancelAt = s.cancelAt := by
  induction evs generalizing s with
  | nil => rfl
  | cons e es ih =>
    obtain ⟨h1, h2, _⟩ := token_stable cfg s e h
    exact (ih _ h1).trans h2

theorem run_append (cfg : Config) (evs more : List Event) :
    run cfg (evs ++ more) = more.foldl (step cfg) (run cfg evs) := by
  simp [run, List.foldl_append]

/-- Bound on the return time in a state that satisfies the invariant. -/
theorem retAt_le (cfg : Config) (s : State) (h : Inv cfg s) (hr : s.pc = .ret) :
    s.cancelAt ≤ s.retAt ∧ s.retAt ≤ s.cancelAt + grace cfg := by
  have h1 := h.retEq hr
  have h2 := h.wAt (h.retW hr)
  omega

/-- While the call has not returned after the cancellation, the clock has not passed the
grace deadline. -/
theorem now_le (cfg : Config) (s : State) (h : Inv cfg s) (hc : s.signalCtx = true)
    (hr : s.pc ≠ .ret) : s.now ≤ s.cancelAt + grace cfg := by
  have h25 := h.frozenC hc
  have h27 := h.pending
  have h29 := h.wAt
  cases hp : s.pc <;> simp [hp] at hr h25 h27 h29 <;> try omega
  cases hw : s.waiterCtx
  · have := h27 hw; omega
  · have := h29 hw; omega

/-! ## Timing of the return -/

/-- Events other than a call of `wg.Done` do not touch the log of `Done` calls. -/
theorem doneLog_step (cfg : Config) (s : State) (e : Event) (he : ∀ i, e ≠ .done i) :
    (step cfg s e).doneLog = s.doneLog := by
  unfold step
  split
  · rfl
  · cases e with
    | done i => exact absurd rfl (he i)
    | main =>
      simp only [StartServer, NotifyContext, stop, cancelSignalCtx, WithTimeout,
        cancelWaiterCtx, wgAdd]
      (repeat' split) <;> simp_all
    | waiterStep =>
      simp only [waiter, cancelWaiterCtx]
      (repeat' split) <;> simp_all
    | timer =>
      simp only [timer, cancelWaiterCtx]
      (repeat' split) <;> simp_all
    | parentCancel =>
      simp only [parentCancel, cancelSignalCtx]
      (repeat' split) <;> simp_all
    | osSignal =>
      simp only [osSignal, cancelSignalCtx]
      (repeat' split) <;> simp_all
    | observe i =>
      simp only [observe]
      (repeat' split) <;> simp_all
    | advance dt =>
      simp only [advance]
      (repeat' split) <;> simp_all

theorem doneLog_foldl (cfg : Config) (evs : List Event) (s : State)
    (he : ∀ e ∈ evs, ∀ i, e ≠ .done i) : (evs.foldl (step cfg) s).doneLog = s.doneLog := by
  induction evs generalizing s with
  | nil => rfl
  | cons e es ih =>
    simp only [List.foldl_cons]
    rw [ih _ (fun x hx => he x (List.mem_cons_of_mem _ hx))]
    exact doneLog_step cfg s e (he e (List.mem_cons_self _ _))

theorem drain_no_done (cfg : Config) (s : State) : ∀ e ∈ drain cfg s, ∀ i, e ≠ .done i := by
  intro e he i hx
  subst hx
  simp [drain] at he

/-- The state in which the drained call has returned: the token is cancelled at the same
clock value and the log of `Done` calls is the same. -/
theorem drained (cfg : Config) (evs : List Event) (hc : (run cfg evs).signalCtx = true) :
    (run cfg (evs ++ drain cfg (run cfg evs))).cancelAt = (run cfg evs).cancelAt ∧
    (run cfg (evs ++ drain cfg (run cfg evs))).doneLog = (run cfg evs).doneLog ∧
    lastDone (run cfg (evs ++ drain cfg (run cfg evs))) = lastDone (run cfg evs) := by
  have h1 : (run cfg (evs ++ drain cfg (run cfg evs))).doneLog = (run cfg evs).doneLog := by
    rw [run_append]; exact doneLog_foldl cfg _ _ (drain_no_done cfg _)
  refine ⟨?_, h1, ?_⟩
  · rw [run_append]; exact cancelAt_stable_foldl cfg _ _ hc
  · simp [lastDone, h1]

/-- Return time of a call whose services have made exactly `N` calls of `Done`, the last
of them before the grace deadline. -/
theorem retAt_of_all_done (cfg : Config) (s : State) (hi : Inv cfg s) (hret : s.pc = .ret)
    (hp : s.panicked = false) (hlen : s.doneLog.length = cfg.services)
    (hd : (lastDone s : Int) < s.cancelAt + cfg.waiterTimeOut) :
    s.retAt = max s.cancelAt (lastDone s) := by
  have hw := hi.retW hret
  have h1 := hi.retEq hret
  cases hb : s.byTimer
  · have := (hi.viaWaiter hw hb).2 hp
    omega
  · by_cases hG : 0 < cfg.waiterTimeOut
    · have h3 := hi.timerLate hb hw hG hlen
      have hg : (grace cfg : Int) = cfg.waiterTimeOut := by simp [grace]; omega
      omega
    · have h3 := (hi.immediate (by rw [hret]; simp) (by omega)).2.1
      omega

/-- C1 (as amended): for a grace period `G ≥ 0`, once the merged token has been cancelled
at clock `c` in a process that has not panicked on a negative WaitGroup counter and has
not been terminated by a signal: a call that has returned did so no later than `c + G`;
while it has not returned the clock has not passed `c + G`; and it does return, without
any further event of a service, by `c + G`.  In particular with `G = 200` and two services
finishing at `c` and at `c + 210`, it returns at `c + 200`. -/
theorem bounded_return (cfg : Config) (evs : List Event) (hG : 0 ≤ cfg.waiterTimeOut)
    (hc : (run cfg evs).signalCtx = true) (hl : dead (run cfg evs) = false) :
    ((run cfg evs).pc = .ret →
      ((run cfg evs).retAt : Int) ≤ (run cfg evs).cancelAt + cfg.waiterTimeOut) ∧
    ((run cfg evs).pc ≠ .ret →
      ((run cfg evs).now : Int) ≤ (run cfg evs).cancelAt + cfg.waiterTimeOut) ∧
    (run cfg (evs ++ drain cfg (run cfg evs))).pc = .ret ∧
    ((run cfg (evs ++ drain cfg (run cfg evs))).retAt : Int) ≤
      (run cfg evs).cancelAt + cfg.waiterTimeOut ∧
    (cfg.waiterTimeOut = 200 → (run cfg evs).pc = .ret →
      (∃ i j, (run cfg evs).doneLog =
        [(j, (run cfg evs).cancelAt + 210), (i, (run cfg evs).cancelAt)]) →
      (run cfg evs).retAt = (run cfg evs).cancelAt + 200) := by
  have hi := inv_run cfg evs
  have hg : (grace cfg : Int) = cfg.waiterTimeOut := by simp [grace]; omega
  have hret := returns_after_drain cfg evs hc hl
  have hi2 := inv_run cfg (evs ++ drain cfg (run cfg evs))
  have hc2 := (drained cfg evs hc).1
  refine ⟨fun hr => ?_, fun hr => ?_, hret, ?_, ?_⟩
  · have := (retAt_le cfg _ hi hr).2; omega
  · have := now_le cfg _ hi hc hr; omega
  · have := (retAt_le cfg _ hi2 hret).2; omega
  · rintro h200 hr ⟨i, j, hlog⟩
    have hw := hi.retW hr
    have h1 := hi.retEq hr
    have h2 := (hi.wAt hw).2.2.2
    have hg2 : grace cfg = 200 := by simp [grace, h200]
    cases hb : (run cfg evs).byTimer
    · have h3 := (hi.viaWaiter hw hb).2 (dead_false _ hl).1
      simp [lastDone, hlog] at h3
      omega
    · have h3 := hi.viaTimer hw hb
      omega

theorem bounded_return_witness :
    (run ⟨some false, 200, 2, 0, 0⟩ schedSlow).retAt = 5 + 200 :=
  (bounded_return ⟨some false, 200, 2, 0, 0⟩ schedSlow (by decide) (by decide)
    (by decide)).2.2.2.2 rfl (by decide) ⟨0, 1, by decide⟩

/-- C1 as stated fails for a service that calls `wg.Done` twice: with one service and a
grace period of 200 the token is cancelled at clock 5 and the service calls `Done` twice
before the waiter has run; the second call finds the counter at 0, makes it negative and
panics, and the call of StartServer, which stands at line 51, does not return. -/
theorem double_done_counterexample :
    (run ⟨some false, 200, 1, 0, 0⟩ schedDoneTwice).signalCtx = true ∧
    (run ⟨some false, 200, 1, 0, 0⟩ schedDoneTwice).cancelAt = 5 ∧
    (run ⟨some false, 200, 1, 0, 0⟩ schedDoneTwice).wg = 0 ∧
    (run ⟨some false, 200, 1, 0, 0⟩ (schedDoneTwice ++ [.done 0])).wg = -1 ∧
    (run ⟨some false, 200, 1, 0, 0⟩ (schedDoneTwice ++ [.done 0])).panicked = true ∧
    (run ⟨some false, 200, 1, 0, 0⟩ (schedDoneTwice ++ [.done 0])).pc = .l51 ∧
    (run ⟨some false, 200, 1, 0, 0⟩ (schedDoneTwice ++ [.done 0] ++
      drain ⟨some false, 200, 1, 0, 0⟩
        (run ⟨some false, 200, 1, 0, 0⟩ (schedDoneTwice ++ [.done 0])))).pc = .l51 := by
  decide

/-- C2: when the token has been cancelled at clock `c`, every service has called `Done`
exactly once, the last `Done` came at clock `d` with `d < c + G`, and the process has not
been terminated by a signal, the call returns, and it returns at `max c d`: it waits for
the slowest service and, for `G > 0`, returns before the grace deadline `c + G`. -/
theorem early_return_on_completion (cfg : Config) (evs : List Event)
    (hc : (run cfg evs).signalCtx = true)
    (hall : ((run cfg evs).doneLog.map Prod.fst).Perm (List.range cfg.services))
    (hd : (lastDone (run cfg evs) : Int) < (run cfg evs).cancelAt + cfg.waiterTimeOut)
    (hk : (run cfg evs).killed = false) :
    (run cfg (evs ++ drain cfg (run cfg evs))).pc = .ret ∧
    (run cfg (evs ++ drain cfg (run cfg evs))).retAt =
      max (run cfg evs).cancelAt (lastDone (run cfg evs)) ∧
    (0 < cfg.waiterTimeOut →
      ((run cfg (evs ++ drain cfg (run cfg evs))).retAt : Int) <
        (run cfg evs).cancelAt + cfg.waiterTimeOut) ∧
    ((run cfg evs).pc = .ret →
      (run cfg evs).retAt = max (run cfg evs).cancelAt (lastDone (run cfg evs))) := by
  have hi := inv_run cfg evs
  have hnd : ((run cfg evs).doneLog.map Prod.fst).Nodup :=
    hall.nodup_iff.mpr (List.nodup_range _)
  have hlen : (run cfg evs).doneLog.length = cfg.services := by
    have := hall.length_eq
    simpa using this
  have hp := (alive_of_nodup cfg _ hi hnd).1
  have hl : dead (run cfg evs) = false := by simp [dead, hp, hk]
  have hret := returns_after_drain cfg evs hc hl
  have hi2 := inv_run cfg (evs ++ drain cfg (run cfg evs))
  obtain ⟨d1, d2, d3⟩ := drained cfg evs hc
  have hp2 := (alive_of_nodup cfg _ hi2 (by rw [d2]; exact hnd)).1
  have key := retAt_of_all_done cfg _ hi2 hret hp2 (by rw [d2]; exact hlen)
    (by rw [d1, d3]; exact hd)
  rw [d1, d3] at key
  refine ⟨hret, key, fun hG => ?_, fun hr => retAt_of_all_done cfg _ hi hr hp hlen hd⟩
  rw [key]
  omega

theorem early_return_on_completion_witness :
    (run ⟨some false, 1000, 2, 0, 0⟩ (schedTestSlow ++
      drain ⟨some false, 1000, 2, 0, 0⟩ (run ⟨some false, 1000, 2, 0, 0⟩ schedTestSlow))).retAt
        = 213 ∧
    (run ⟨some false, 1000, 2, 0, 0⟩ (schedTestPrompt ++
      drain ⟨some false, 1000, 2, 0, 0⟩
        (run ⟨some false, 1000, 2, 0, 0⟩ schedTestPrompt))).retAt = 3 :=
  ⟨(early_return_on_completion ⟨some false, 1000, 2, 0, 0⟩ schedTestSlow (by decide)
      (by decide) (by decide) (by decide)).2.1.trans (by decide),
    (early_return_on_completion ⟨some false, 1000, 2, 0, 0⟩ schedTestPrompt (by decide)
      (by decide) (by decide) (by decide)).2.1.trans (by decide)⟩

/-- C3: with no services and a grace period `G > 0`, the call does not return before the
merged token is cancelled; the counter of the WaitGroup is 0 throughout; once the token
is cancelled the clock does not advance until the call has returned, the call, in a
process that has not been terminated by a signal, does return, and it returns at the
clock value of the cancellation through `waiterComplete`, not through the timer. -/
theorem vacuous_completion (cfg : Config) (evs : List Event) (hN : cfg.services = 0)
    (hG : 0 < cfg.waiterTimeOut) :
    ((run cfg evs).signalCtx = false → (run cfg evs).pc ≠ .ret) ∧
    (run cfg evs).wg = 0 ∧ (run cfg evs).panicked = false ∧
    ((run cfg evs).signalCtx = true → (run cfg evs).pc ≠ .ret →
      (run cfg evs).now = (run cfg evs).cancelAt) ∧
    ((run cfg evs).pc = .ret →
      (run cfg evs).retAt = (run cfg evs).cancelAt ∧ (run cfg evs).byTimer = false) ∧
    ((run cfg evs).signalCtx = true → (run cfg evs).killed = false →
      (run cfg (evs ++ drain cfg (run cfg evs))).pc = .ret ∧
      (run cfg (evs ++ drain cfg (run cfg evs))).retAt = (run cfg evs).cancelAt ∧
      (run cfg (evs ++ drain cfg (run cfg evs))).byTimer = false) := by
  have main : ∀ evs : List Event,
      (run cfg evs).doneLog = [] ∧ (run cfg evs).wg = 0 ∧ (run cfg evs).panicked = false ∧
      ((run cfg evs).waiterCtx = true →
        (run cfg evs).byTimer = false ∧ (run cfg evs).waiterCtxAt = (run cfg evs).cancelAt) := by
    intro evs
    have hi := inv_run cfg evs
    have hs := hi.startedLe
    have hlog : (run cfg evs).doneLog = [] := by
      cases hx : (run cfg evs).doneLog with
      | nil => rfl
      | cons p l =>
        have := hi.doneLt p.1 (by simp [hx])
        omega
    have hp : (run cfg evs).pc ≠ .l43 := fun h => by
      have := hi.startedLt (Or.inr h); omega
    have hc := hi.counter
    simp [added, hp, hlog] at hc
    have hwg : (run cfg evs).wg = 0 := by omega
    have hpa : (run cfg evs).panicked = false := by
      cases hq : (run cfg evs).panicked
      · rfl
      · have := hi.panicIff.mp hq; omega
    refine ⟨hlog, hwg, hpa, fun hw => ?_⟩
    have hb : (run cfg evs).byTimer = false := by
      cases hb : (run cfg evs).byTimer
      · rfl
      · have := hi.timerLate hb hw hG (by simp [hlog, hN])
        simp [lastDone, hlog, grace] at this
        omega
    have := (hi.viaWaiter hw hb).2 hpa
    simp [lastDone, hlog] at this
    exact ⟨hb, this⟩
  have hi := inv_run cfg evs
  obtain ⟨hlog, hwg, hpa, hwc⟩ := main evs
  refine ⟨?_, hwg, hpa, ?_, ?_, ?_⟩
  · intro hs hr
    have := hi.passed (by rw [hr]; simp)
    simp [hs] at this
  · intro hc hr
    have h25 := hi.frozenC hc
    cases hp : (run cfg evs).pc <;> simp [hp] at hr h25 <;> try omega
    cases hw : (run cfg evs).waiterCtx
    · have h17 := hi.wIdle
      have h22 := hi.wExit
      have h33 := hi.frozenW
      cases hwp : (run cfg evs).wpc <;> simp [hwp, hp, hw, hlog, hN, lastDone] at h17 h22 h33
      · exact h33
      · exact h33
    · have := ((hi.wAt hw).2.2.1 (by rw [hp]; simp))
      have := (hwc hw).2
      omega
  · intro hr
    have := hwc (hi.retW hr)
    have := hi.retEq hr
    exact ⟨by omega, (hwc (hi.retW hr)).1⟩
  · intro hc hk
    have hret := returns_after_drain cfg evs hc (by simp [dead, hpa, hk])
    have hi2 := inv_run cfg (evs ++ drain cfg (run cfg evs))
    obtain ⟨_, _, _, hwc2⟩ := main (evs ++ drain cfg (run cfg evs))
    have hc2 := (drained cfg evs hc).1
    have h1 := hwc2 (hi2.retW hret)
    have h2 := hi2.retEq hret
    exact ⟨hret, by omega, h1.1⟩

theorem vacuous_completion_witness :
    (run ⟨none, 200, 0, 0, 0⟩ ([.main, .main, .main, .main, .advance 7, .osSignal] ++
      drain ⟨none, 200, 0, 0, 0⟩
        (run ⟨none, 200, 0, 0, 0⟩ [.main, .main, .main, .main, .advance 7, .osSignal]))).retAt
      = 7 :=
  ((vacuous_completion ⟨none, 200, 0, 0, 0⟩ [.main, .main, .main, .main, .advance 7, .osSignal]
    rfl (by decide)).2.2.2.2.2 (by decide) (by decide)).2.1.trans (by decide)

/-- Steps of StartServer do not touch the log of `Done` calls. -/
theorem doneLog_mains (cfg : Config) (k : Nat) (s : State) :
    ((List.replicate k Event.main).foldl (step cfg) s).doneLog = s.doneLog := by
  refine doneLog_foldl cfg _ s ?_
  intro e he i hx
  subst hx
  simp at he

/-- A non-positive grace period behaves like a grace period of zero, event by event. -/
theorem step_grace_nonpos (cfg : Config) (s : State) (e : Event)
    (hG : cfg.waiterTimeOut ≤ 0) :
    step cfg s e = step { cfg with waiterTimeOut := 0 } s e := by
  unfold step
  split
  · rfl
  · cases e <;> simp only [StartServer, parentCancel, WithTimeout, hG, le_refl, if_true]

theorem run_grace_nonpos (cfg : Config) (evs : List Event) (hG : cfg.waiterTimeOut ≤ 0) :
    run cfg evs = run { cfg with waiterTimeOut := 0 } evs := by
  have hstep : step cfg = step { cfg with waiterTimeOut := 0 } := by
    funext s e; exact step_grace_nonpos cfg s e hG
  simp [run, hstep, init]

/-- C7: with `waiterTimeOut ≤ 0`, once the merged token is cancelled the clock does not
advance until the call has returned; the call of a live process returns at the clock
value of the cancellation, by steps of StartServer alone, with no `Done` of any service;
every state is the state the same schedule produces with `waiterTimeOut = 0`; and the
process panics only on a negative WaitGroup counter, which no event other than a call of
`wg.Done` produces and which does not occur while no service has called `Done` twice. -/
theorem nonpositive_grace (cfg : Config) (evs : List Event) (e : Event)
    (hG : cfg.waiterTimeOut ≤ 0) :
    ((run cfg evs).signalCtx = true → (run cfg evs).pc ≠ .ret →
      (run cfg evs).now = (run cfg evs).cancelAt) ∧
    ((run cfg evs).pc = .ret → (run cfg evs).retAt = (run cfg evs).cancelAt) ∧
    ((run cfg evs).signalCtx = true → dead (run cfg evs) = false →
      (run cfg (evs ++ List.replicate (3 * cfg.services + 9) .main)).pc = .ret ∧
      (run cfg (evs ++ List.replicate (3 * cfg.services + 9) .main)).retAt =
        (run cfg evs).cancelAt ∧
      (run cfg (evs ++ List.replicate (3 * cfg.services + 9) .main)).doneLog =
        (run cfg evs).doneLog) ∧
    run cfg evs = run { cfg with waiterTimeOut := 0 } evs ∧
    ((run cfg evs).panicked = true ↔ (run cfg evs).wg < 0) ∧
    (((run cfg evs).doneLog.map Prod.fst).Nodup → (run cfg evs).panicked = false) ∧
    ((∀ i, e ≠ .done i) →
      (step cfg (run cfg evs) e).panicked = (run cfg evs).panicked) := by
  have hret : ∀ evs : List Event, (run cfg evs).pc = .ret →
      (run cfg evs).retAt = (run cfg evs).cancelAt := by
    intro evs hr
    have hi := inv_run cfg evs
    have := (hi.immediate (by rw [hr]; simp) hG).2.1
    have := hi.retEq hr
    omega
  have hi := inv_run cfg evs
  refine ⟨?_, hret evs, ?_, run_grace_nonpos cfg evs hG, hi.panicIff,
    fun hnd => (alive_of_nodup cfg _ hi hnd).1, panic_only_by_done cfg _ e hi⟩
  · intro hc hr
    have h25 := hi.frozenC hc
    cases hp : (run cfg evs).pc <;> simp [hp] at hr h25 <;> try omega
    have h26 := hi.immediate (by rw [hp]; simp) hG
    have := (hi.wAt h26.1).2.2.1 (by rw [hp]; simp)
    omega
  · intro hc hl
    have hk : todo cfg (run cfg evs) ≤ 3 * cfg.services + 9 := by
      have := hi.startedLe
      unfold todo
      split <;> (try split) <;> omega
    obtain ⟨m1, _, m3, _, _⟩ := mains_settle cfg _ _ hi hc hl hk
    have hi2 := inv_run cfg (evs ++ List.replicate (3 * cfg.services + 9) .main)
    rw [← run_append] at m1 m3
    have hr : (run cfg (evs ++ List.replicate (3 * cfg.services + 9) .main)).pc = .ret := by
      have h26 := hi2.immediate
      unfold todo at m1
      split at m1 <;> simp_all
    refine ⟨hr, (hret _ hr).trans m3, ?_⟩
    rw [run_append]
    exact doneLog_mains cfg _ _

theorem nonpositive_grace_witness :
    (run ⟨some false, -5, 1, 0, 0⟩ (List.replicate 7 .main ++ [.advance 4, .parentCancel] ++
      List.replicate (3 * 1 + 9) .main)).retAt = 4 :=
  ((nonpositive_grace ⟨some false, -5, 1, 0, 0⟩
    (List.replicate 7 .main ++ [.advance 4, .parentCancel]) .main (by decide)).2.2.1
      (by decide) (by decide)).2.1.trans (by decide)

/-- C8 (as amended): the timer of `waiterCtx` is not armed before line 49, which
StartServer reaches only after it has seen the merged token cancelled, and an armed timer
has the deadline `c + G`, where `c` is the clock value of the cancellation.  So for
`G ≥ 0`, when fewer than `N` calls of `Done` have been made, and in particular when no
service has called `Done` twice and some service has not called it, the call that has
returned did so exactly at `c + G`, however long it had been running before the
cancellation; and the call of a live process does return. -/
theorem grace_clock_starts_at_cancellation (cfg : Config) (evs : List Event)
    (hG : 0 ≤ cfg.waiterTimeOut) :
    ((run cfg evs).pc.rank ≤ 8 →
      (run cfg evs).armed = false ∧ (run cfg evs).waiterCtx = false) ∧
    ((run cfg evs).armed = true →
      (run cfg evs).signalCtx = true ∧
        ((run cfg evs).deadline : Int) = (run cfg evs).cancelAt + cfg.waiterTimeOut) ∧
    ((run cfg evs).pc = .ret → (run cfg evs).doneLog.length < cfg.services →
      ((run cfg evs).retAt : Int) = (run cfg evs).cancelAt + cfg.waiterTimeOut) ∧
    ((run cfg evs).pc = .ret → ((run cfg evs).doneLog.map Prod.fst).Nodup →
      (∃ i, i < cfg.services ∧ i ∉ (run cfg evs).doneLog.map Prod.fst) →
      ((run cfg evs).retAt : Int) = (run cfg evs).cancelAt + cfg.waiterTimeOut) ∧
    ((run cfg evs).signalCtx = true → dead (run cfg evs) = false →
      (run cfg (evs ++ drain cfg (run cfg evs))).pc = .ret) := by
  have hi := inv_run cfg evs
  have hg : (grace cfg : Int) = cfg.waiterTimeOut := by simp [grace]; omega
  have key : (run cfg evs).pc = .ret → (run cfg evs).doneLog.length < cfg.services →
      ((run cfg evs).retAt : Int) = (run cfg evs).cancelAt + cfg.waiterTimeOut := by
    intro hr hlt
    have hw := hi.retW hr
    have h1 := hi.retEq hr
    cases hb : (run cfg evs).byTimer
    · have hlen := (hi.viaWaiter hw hb).1
      omega
    · have := hi.viaTimer hw hb
      omega
  refine ⟨fun hr => ?_, fun ha => ?_, key, ?_, returns_after_drain cfg evs⟩
  · have := hi.noWctx hr
    exact ⟨this.2, this.1⟩
  · have h1 := (hi.dl ha).1
    have h2 : (run cfg evs).signalCtx = true := by
      apply hi.passed
      by_contra hlt
      have := (hi.noWctx (by omega)).2
      simp [ha] at this
    exact ⟨h2, by omega⟩
  · rintro hr hnd ⟨i, hlt, hni⟩
    apply key hr
    by_contra hge
    apply hni
    have hlt2 : ∀ j ∈ (run cfg evs).doneLog.map Prod.fst, j < cfg.services := by
      intro j hj
      have := hi.doneLt j hj
      have := hi.startedLe
      omega
    have hle := length_le_of_nodup_lt _ _ hnd hlt2
    simp only [List.length_map] at hle
    exact mem_of_nodup_lt_length _ _ hnd hlt2 (by simp only [List.length_map]; omega) i hlt

theorem grace_clock_starts_at_cancellation_witness :
    ((run ⟨none, 200, 1, 0, 0⟩ schedStuck).retAt : Int) = 500 + 200 :=
  (grace_clock_starts_at_cancellation ⟨none, 200, 1, 0, 0⟩ schedStuck (by decide)).2.2.2.1
    (by decide) (by decide) ⟨0, by decide, by decide⟩

/-- C8 as stated fails when another service calls `wg.Done` twice: with two services
and a grace period of 200 the token is cancelled at clock 5, service 0 calls `Done` twice
and service 1 never calls it; the counter reaches 0, the waiter cancels `waiterCtx`, and
the call returns at clock 5, not at 205. -/
theorem silent_service_counterexample :
    (run ⟨some false, 200, 2, 0, 0⟩ schedTwiceNever).pc = .ret ∧
    (run ⟨some false, 200, 2, 0, 0⟩ schedTwiceNever).cancelAt = 5 ∧
    (run ⟨some false, 200, 2, 0, 0⟩ schedTwiceNever).retAt = 5 ∧
    (run ⟨some false, 200, 2, 0, 0⟩ schedTwiceNever).byTimer = false ∧
    (run ⟨some false, 200, 2, 0, 0⟩ schedTwiceNever).panicked = false ∧
    1 ∉ (run ⟨some false, 200, 2, 0, 0⟩ schedTwiceNever).doneLog.map Prod.fst ∧
    (run ⟨some false, 200, 2, 0, 0⟩ schedTwiceNever).doneLog = [(0, 5), (0, 5)] := by
  decide

end Graceful
